import Mathlib

/-!
Shallow embedding of the claim-approval prediction service (`app.py`) and
verification of its specification claims.

Numbers are modelled as rationals extended with the IEEE special values
NaN / +inf / -inf that the pandas/numpy float arithmetic in the source can
produce; `FVal` is that domain.  JSON scalars entering a record are either
such a number or a string (`Scalar`).  DataFrames are modelled
column-oriented, as association lists from column name to the list of the
column's row values, because the source's feature engineering is
column-vectorised.  Operations that raise in Python (string arithmetic,
bad payload types) are modelled with `Except String`.
-/

namespace ClaimEngine

/-- Float-value domain: NaN, plus/minus infinity, or a finite rational. -/
inductive FVal where
  | nan : FVal
  | pinf : FVal
  | ninf : FVal
  | fin (q : ℚ) : FVal
  deriving DecidableEq, Repr

namespace FVal

/-- Add a finite constant (models `series + eps`). -/
def addConst : FVal → ℚ → FVal
  | nan, _ => nan
  | pinf, _ => pinf
  | ninf, _ => ninf
  | fin q, c => fin (q + c)

/-- IEEE-style division (models the element-wise `/` of pandas on floats):
division by zero gives a signed infinity, `0/0` gives NaN, NaN propagates. -/
def div : FVal → FVal → FVal
  | nan, _ => nan
  | _, nan => nan
  | pinf, pinf => nan
  | pinf, ninf => nan
  | ninf, pinf => nan
  | ninf, ninf => nan
  | pinf, fin b => if b < 0 then ninf else pinf
  | ninf, fin b => if b < 0 then pinf else ninf
  | fin _, pinf => fin 0
  | fin _, ninf => fin 0
  | fin a, fin b =>
    if b = 0 then (if a = 0 then nan else if a > 0 then pinf else ninf)
    else fin (a / b)

/-- Two-sided clip (models `series.clip(lo, hi)` / `np.clip(v, lo, hi)`);
NaN propagates. -/
def clip2 : FVal → ℚ → ℚ → FVal
  | nan, _, _ => nan
  | pinf, _, hi => fin hi
  | ninf, lo, _ => fin lo
  | fin q, lo, hi => fin (max lo (min q hi))

/-- Upper-only clip (models `np.clip(v, None, hi)`, i.e. `min(v, hi)` with
NaN propagation). -/
def clipHi : FVal → ℚ → FVal
  | nan, _ => nan
  | pinf, hi => fin hi
  | ninf, _ => ninf
  | fin q, hi => fin (min q hi)

/-- Lower-only clip (models `np.clip(v, 0, None)`, i.e. `max(v, lo)` with
NaN propagation). -/
def clipLo : FVal → ℚ → FVal
  | nan, _ => nan
  | pinf, _ => pinf
  | ninf, lo => fin lo
  | fin q, lo => fin (max lo q)

/-- `v < 0` under IEEE comparison semantics (false for NaN). -/
def ltZero : FVal → Bool
  | nan => false
  | pinf => false
  | ninf => true
  | fin q => decide (q < 0)

/-- `v == 0` under IEEE comparison semantics (false for NaN). -/
def eqZero : FVal → Bool
  | nan => false
  | pinf => false
  | ninf => false
  | fin q => decide (q = 0)

/-- Apply the (abstract) finite `log1p` function `f` the way `np.log1p`
treats the special values: NaN for arguments below `-1`, `-inf` at `-1`. -/
def log1pApp (f : ℚ → ℚ) : FVal → FVal
  | nan => nan
  | pinf => pinf
  | ninf => nan
  | fin q => if q < -1 then nan else if q = -1 then ninf else fin (f q)

/-- Membership of a value in a closed rational interval; NaN and the
infinities are never in range (IEEE comparisons with NaN are false). -/
def inRange (v : FVal) (lo hi : ℚ) : Bool :=
  match v with
  | fin q => decide (lo ≤ q ∧ q ≤ hi)
  | _ => false

end FVal

/-- A JSON scalar as it sits in a DataFrame cell: a number (possibly the
missing marker NaN) or a string. -/
inductive Scalar where
  | num (v : FVal) : Scalar
  | str (s : String) : Scalar
  deriving DecidableEq, Repr

/-- Parse the digits of a natural number; `none` when empty or non-digit. -/
def parseDigits : List Char → Option ℕ
  | [] => none
  | cs =>
    cs.foldl (fun acc c =>
      match acc with
      | none => none
      | some n => if c.isDigit then some (n * 10 + (c.toNat - 48)) else none)
      (some 0)

/-- Model of `float(s)` on plain decimal strings (optional sign, integer
part, optional fractional part); anything else fails to parse. -/
def parseDecimal (s : String) : Option ℚ :=
  let cs := s.trim.toList
  let (sign, rest) :=
    match cs with
    | '-' :: t => ((-1 : ℚ), t)
    | '+' :: t => ((1 : ℚ), t)
    | t => ((1 : ℚ), t)
  let intPart := rest.takeWhile (·.isDigit)
  let after := rest.drop intPart.length
  match after with
  | [] =>
    (parseDigits intPart).map (fun n => sign * (n : ℚ))
  | '.' :: fracCs =>
    if fracCs.all (·.isDigit) ∧ (intPart ≠ [] ∨ fracCs ≠ []) then
      let ip := (parseDigits intPart).getD 0
      let fp := (parseDigits fracCs).getD 0
      some (sign * ((ip : ℚ) + (fp : ℚ) / ((10 : ℚ) ^ fracCs.length)))
    else none
  | _ => none

/-- Model of `pd.to_numeric(·, errors="coerce")` on one cell: numbers pass
through, numeric strings parse, anything else coerces to NaN. -/
def Scalar.toNumeric : Scalar → FVal
  | .num v => v
  | .str s =>
    match parseDecimal s with
    | some q => FVal.fin q
    | none => FVal.nan

/-! ### Key normalization (`_norm_key`)

`_norm_key(k) = "_".join(str(k).strip().upper().split())`.  We model the
Python string operations over `List Char`: `strip` drops whitespace at both
ends, `upper` maps `Char.toUpper`, `split()` (no argument) splits on
whitespace runs discarding empties, and `join` intercalates. -/

/-- Model of Python `str.strip()`. -/
def pyStrip (l : List Char) : List Char :=
  ((l.dropWhile Char.isWhitespace).reverse.dropWhile Char.isWhitespace).reverse

/-- Model of Python `str.upper()` (per-character uppercasing). -/
def pyUpper (l : List Char) : List Char :=
  l.map Char.toUpper

/-- Worker for `pySplit`: `acc` holds the current word, reversed. -/
def pySplitAux : List Char → List Char → List (List Char)
  | [], acc => if acc = [] then [] else [acc.reverse]
  | c :: cs, acc =>
    if c.isWhitespace then
      (if acc = [] then pySplitAux cs [] else acc.reverse :: pySplitAux cs [])
    else pySplitAux cs (c :: acc)

/-- Model of Python `str.split()` with no separator: split on whitespace
runs, with no empty tokens. -/
def pySplit (l : List Char) : List (List Char) :=
  pySplitAux l []

/-- Model of `"_".join(words)`. -/
def joinUnderscore : List (List Char) → List Char
  | [] => []
  | w :: ws =>
    match ws with
    | [] => w
    | _ :: _ => w ++ '_' :: joinUnderscore ws

/-- `_norm_key` on character lists. -/
def normKeyL (l : List Char) : List Char :=
  joinUnderscore (pySplit (pyUpper (pyStrip l)))

/-- `_norm_key(k)`: trim, uppercase, collapse whitespace runs to single
underscores. -/
def normKey (s : String) : String :=
  ⟨normKeyL s.data⟩

/-! ### Records and dict semantics -/

/-- A JSON object in iteration order: list of key/value pairs.  A record
produced from a Python dict has no duplicate keys. -/
abbrev Record := List (String × Scalar)

/-- Keys of a record, in order. -/
def keysOf (r : Record) : List String := r.map Prod.fst

/-- First value stored under key `k` (dict lookup; records built by our
dict operations have unique keys). -/
def recFind? (r : Record) (k : String) : Option Scalar :=
  (r.find? (fun kv => kv.1 = k)).map Prod.snd

/-- Python dict assignment `d[k] = v`: overwrite in place when the key
exists, else append (insertion order preserved). -/
def dictInsert (r : Record) (k : String) (v : Scalar) : Record :=
  if k ∈ keysOf r then
    r.map (fun kv => if kv.1 = k then (k, v) else kv)
  else r ++ [(k, v)]

/-- `{_norm_key(k): v for k, v in r.items()}`: fold the record into a fresh
dict keyed by normalized keys; a later entry whose key normalizes to the
same canonical key overwrites the earlier value. -/
def normRecord (r : Record) : Record :=
  r.foldl (fun acc kv => dictInsert acc (normKey kv.1) kv.2) []

/-- The `SERVICE_DESC` → `SRV_DESC` alias step: when training used
`SRV_DESC`, the normalized record has `SERVICE_DESC` and lacks `SRV_DESC`,
pop `SERVICE_DESC` and assign its value to the (new) key `SRV_DESC`. -/
def aliasSrv (baseFeatures : List String) (r : Record) : Record :=
  if "SERVICE_DESC" ∈ keysOf r ∧ "SRV_DESC" ∈ baseFeatures ∧
      "SRV_DESC" ∉ keysOf r then
    (r.filter (fun kv => kv.1 ≠ "SERVICE_DESC")) ++
      [("SRV_DESC", (recFind? r "SERVICE_DESC").getD (Scalar.num FVal.nan))]
  else r

/-! ### Frames (column-oriented DataFrames) -/

/-- A DataFrame: columns in order, each column holding one value per row. -/
abbrev Frame := List (String × List Scalar)

/-- Column names, in order. -/
def colsOf (f : Frame) : List String := f.map Prod.fst

/-- Column lookup `df[c]`. -/
def colFind? (f : Frame) (c : String) : Option (List Scalar) :=
  (f.find? (fun kv => kv.1 = c)).map Prod.snd

/-- `df[c] = col`: overwrite an existing column in place or append a new
one at the end (pandas column assignment). -/
def setCol (f : Frame) (c : String) (col : List Scalar) : Frame :=
  if c ∈ colsOf f then
    f.map (fun kv => if kv.1 = c then (c, col) else kv)
  else f ++ [(c, col)]

/-- Ordered union of the records' key sets (first-seen order), i.e. the
column set `pd.DataFrame(records)` builds. -/
def unionKeys (rs : List Record) : List String :=
  rs.foldl (fun acc r => acc ++ (keysOf r).filter (fun k => k ∉ acc)) []

/-- `pd.DataFrame(records)`: one column per key seen in any record, with
NaN for the rows whose record lacks the key. -/
def buildFrame (rs : List Record) : Frame :=
  (unionKeys rs).map (fun c =>
    (c, rs.map (fun r => (recFind? r c).getD (Scalar.num FVal.nan))))

/-! ### Artifacts and feature engineering -/

/-- The artifacts loaded once at startup (`metadata.json`, `threshold.json`,
`clip_stats.json`), plus `log1p`, the abstract model of the transcendental
`np.log1p` on finite arguments. -/
structure Config where
  baseFeatures : List String
  numCols : List String
  clipStats : Option (List (String × ℚ))
  bestThr : ℚ
  log1p : ℚ → ℚ

/-- The fixed six-name monetary column set `KNOWN_AMT_COLS`. -/
def KNOWN_AMT_COLS : List String :=
  ["CLAIMED_AMOUNT", "SYSTEM_CLAIMED_AMOUNT", "PATIENT_SHARE",
   "BILLED_TAX", "ACCEPTED_TAX", "GROSS_CLAIMED_AMOUNT"]

/-- `amt_for_feats = [c for c in KNOWN_AMT_COLS if c in BASE_FEATURES or c
in NUM_COLS]`. -/
def amtForFeats (cfg : Config) : List String :=
  KNOWN_AMT_COLS.filter (fun c => c ∈ cfg.baseFeatures ∨ c ∈ cfg.numCols)

/-- The four derived-column name suffixes of the amount-feature loop. -/
def AMT_SUFFIXES : List String :=
  ["_CLIP", "_LOG1P", "_NEG_FLAG", "_ZERO_FLAG"]

/-- The three derived ratio column names. -/
def DERIVED_RATIO_COLS : List String :=
  ["PATIENT_SHARE_PCT", "TAX_ACCEPT_RATIO", "SYSTEM_TO_CLAIMED_RATIO"]

/-- `clip_stats and c in clip_stats` followed by `clip_stats[c]`: the clip
bound for column `c` when clip stats were loaded and contain `c` (an empty
loaded mapping is falsy in Python, and also has no entry for `c`, so plain
lookup is faithful). -/
def lookupClip (cfg : Config) (c : String) : Option ℚ :=
  match cfg.clipStats with
  | none => none
  | some cs => (cs.find? (fun kv => kv.1 = c)).map Prod.snd

/-- A cell entering float arithmetic: a string raises `TypeError` (pandas
element-wise arithmetic on an object column with a string operand). -/
def cellToF : Scalar → Except String FVal
  | .num v => .ok v
  | .str _ => .error "unsupported operand type for arithmetic"

/-- Lift a whole column into float arithmetic, failing on any string. -/
def colToF (col : List Scalar) : Except String (List FVal) :=
  col.mapM cellToF

/-- The division guard `eps = 1e-9`. -/
def eps : ℚ := 1 / 1000000000

/-- One ratio feature: `(num / (den + eps)).clip(lo, hi)` element-wise. -/
def ratioCol (numCol denCol : List Scalar) (lo hi : ℚ) :
    Except String (List Scalar) := do
  let a ← colToF numCol
  let b ← colToF denCol
  .ok (List.zipWith
    (fun x y => Scalar.num ((x.div (y.addConst eps)).clip2 lo hi)) a b)

/-- Add one ratio column when both source columns are present. -/
def addRatio (df : Frame) (numName denName outName : String) (lo hi : ℚ) :
    Except String Frame :=
  if numName ∈ colsOf df ∧ denName ∈ colsOf df then do
    let col ← ratioCol ((colFind? df numName).getD [])
      ((colFind? df denName).getD []) lo hi
    .ok (setCol df outName col)
  else .ok df

/-- The body of the amount-feature loop for one column `c`: coerce to
numeric, then add `c_CLIP`, `c_LOG1P`, `c_NEG_FLAG`, `c_ZERO_FLAG`. -/
def amtFeatureStep (cfg : Config) (df : Frame) (c : String) : Frame :=
  if c ∈ colsOf df then
    let vals : List FVal := ((colFind? df c).getD []).map Scalar.toNumeric
    let clipCol : List FVal :=
      match lookupClip cfg c with
      | some hi => vals.map (fun v => v.clipHi hi)
      | none => vals
    let logCol : List FVal :=
      match lookupClip cfg c with
      | some hi => vals.map (fun v => FVal.log1pApp cfg.log1p (v.clip2 0 hi))
      | none => vals.map (fun v => FVal.log1pApp cfg.log1p (v.clipLo 0))
    let df1 := setCol df (c ++ "_CLIP") (clipCol.map Scalar.num)
    let df2 := setCol df1 (c ++ "_LOG1P") (logCol.map Scalar.num)
    let df3 := setCol df2 (c ++ "_NEG_FLAG")
      (vals.map (fun v => Scalar.num (FVal.fin (if v.ltZero then 1 else 0))))
    setCol df3 (c ++ "_ZERO_FLAG")
      (vals.map (fun v => Scalar.num (FVal.fin (if v.eqZero then 1 else 0))))
  else df

/-- `_apply_engineering_to_frame`: the three ratio features, then the
amount-feature loop over `amt_for_feats`. -/
def engineerFrame (cfg : Config) (df0 : Frame) : Except String Frame := do
  let df1 ← addRatio df0 "PATIENT_SHARE" "CLAIMED_AMOUNT"
    "PATIENT_SHARE_PCT" 0 5
  let df2 ← addRatio df1 "ACCEPTED_TAX" "BILLED_TAX" "TAX_ACCEPT_RATIO" 0 2
  let df3 ← addRatio df2 "SYSTEM_CLAIMED_AMOUNT" "CLAIMED_AMOUNT"
    "SYSTEM_TO_CLAIMED_RATIO" 0 5
  .ok ((amtForFeats cfg).foldl (amtFeatureStep cfg) df3)

/-! ### Frame assembly (`_to_feature_frame`) -/

/-- A `/predict` request body after JSON parsing: an object, an array of
objects, or anything else (which raises `ValueError`). -/
inductive Payload where
  | obj (r : Record) : Payload
  | arr (rs : List Record) : Payload
  | other (desc : String) : Payload

/-- The `records` list: `[payload]` for an object, the list itself for an
array, and `ValueError` otherwise. -/
def payloadRecords : Payload → Except String (List Record)
  | .obj r => .ok [r]
  | .arr rs => .ok rs
  | .other _ =>
    .error "Payload must be a JSON object or a list of JSON objects."

/-- Normalize every record's keys and apply the `SRV_DESC` alias. -/
def normalizedRecords (cfg : Config) (rs : List Record) : List Record :=
  rs.map (fun r => aliasSrv cfg.baseFeatures (normRecord r))

/-- The engineered (enriched) frame before reindexing to `BASE_FEATURES`. -/
def enrichedOf (cfg : Config) (p : Payload) : Except String Frame := do
  let rs ← payloadRecords p
  engineerFrame cfg (buildFrame (normalizedRecords cfg rs))

/-- `_to_feature_frame`: normalize, engineer, fill the missing base
features with NaN, and select exactly `BASE_FEATURES` in order. -/
def toFeatureFrame (cfg : Config) (p : Payload) : Except String Frame := do
  let rs ← payloadRecords p
  let enriched ← engineerFrame cfg (buildFrame (normalizedRecords cfg rs))
  .ok (cfg.baseFeatures.map (fun c =>
    (c, (colFind? enriched c).getD
      (List.replicate rs.length (Scalar.num FVal.nan)))))

/-! ### Predictor (`_predict_df` and the `/predict` handler) -/

/-- A scalar in the JSON response: a float, a Python int, or a bool (the
code never emits the bool case; it exists so that shape claims about
boolean fields are statable). -/
inductive JScalar where
  | num (q : ℚ) : JScalar
  | intv (n : ℤ) : JScalar
  | boolv (b : Bool) : JScalar
  deriving DecidableEq, Repr

/-- One prediction record of the response, in field order. -/
abbrev PredRecord := List (String × JScalar)

/-- Field lookup in a prediction record. -/
def predFind? (r : PredRecord) (k : String) : Option JScalar :=
  (r.find? (fun kv => kv.1 = k)).map Prod.snd

/-- `round(x, 6)`: rounding to 6 decimal digits (the model rounds ties up;
no claim depends on the tie rule). -/
def round6 (q : ℚ) : ℚ :=
  ((round (q * 1000000) : ℤ) : ℚ) / 1000000

/-- `_predict_df` given the opaque pipeline's positive-class probabilities,
one per row: threshold defaults to `BEST_THR`, probability and threshold
are rounded for display, the decision compares unrounded values. -/
def predictDf (cfg : Config) (proba : List ℚ) (thrOv : Option ℚ) :
    List PredRecord :=
  let thr := thrOv.getD cfg.bestThr
  proba.map (fun p =>
    [("proba_approved", JScalar.num (round6 p)),
     ("threshold", JScalar.num (round6 thr)),
     ("decision", JScalar.intv (if thr ≤ p then 1 else 0))])

/-- The `for i, p in enumerate(preds): p["row_id"] = i` loop. -/
def withRowIds (preds : List PredRecord) : List PredRecord :=
  preds.enum.map (fun ir => ir.2 ++ [("row_id", JScalar.intv ir.1)])

/-- An HTTP response of `/predict`: success with `n` and the predictions,
or the structured error object with its status code. -/
inductive Resp where
  | success (n : ℕ) (predictions : List PredRecord) : Resp
  | failure (status : ℕ) (errMsg : String) : Resp
  deriving DecidableEq, Repr

/-- The `/predict` handler: build the feature frame, run the opaque
pipeline (`clf.predict_proba`, modelled as a function that may raise),
attach row ids; every exception is caught and returned as a 400 failure. -/
def predictHandler (cfg : Config) (pipeline : Frame → Except String (List ℚ))
    (p : Payload) (thrOv : Option ℚ) : Resp :=
  match toFeatureFrame cfg p with
  | .error e => .failure 400 e
  | .ok fv =>
    match pipeline fv with
    | .error e => .failure 400 e
    | .ok proba =>
      let preds := withRowIds (predictDf cfg proba thrOv)
      .success preds.length preds

/-- A small concrete artifact configuration (metadata, clip stats and
threshold) used to instantiate the theorems on concrete inputs. -/
def demoConfig : Config :=
  { baseFeatures := ["CLAIMED_AMOUNT", "PATIENT_SHARE", "PATIENT_SHARE_PCT",
      "CLAIMED_AMOUNT_CLIP", "CLAIMED_AMOUNT_LOG1P",
      "CLAIMED_AMOUNT_NEG_FLAG", "CLAIMED_AMOUNT_ZERO_FLAG", "SRV_DESC"]
    numCols := []
    clipStats := some [("CLAIMED_AMOUNT", 1000)]
    bestThr := 1 / 2
    log1p := id }

/-- The Prediction shape asserted by the spec for C6, stated from the
spec's words: a field named `probability` with a value in `[0,1]`, a field
named `threshold` with a value in `[0,1]`, a boolean `decision` field and
an integer `row_id` field. -/
def specPredShape (r : PredRecord) : Prop :=
  (∃ q, predFind? r "probability" = some (JScalar.num q) ∧
    0 ≤ q ∧ q ≤ 1) ∧
  (∃ q, predFind? r "threshold" = some (JScalar.num q) ∧ 0 ≤ q ∧ q ≤ 1) ∧
  (∃ b, predFind? r "decision" = some (JScalar.boolv b)) ∧
  (∃ n, predFind? r "row_id" = some (JScalar.intv n))

/-! ### Lemmas on the key normalizer -/

theorem toUpper_idem (c : Char) : c.toUpper.toUpper = c.toUpper := by
  unfold Char.toUpper
  by_cases h : c.toNat ≥ 97 ∧ c.toNat ≤ 122
  · rw [if_pos h]
    have hv : Char.isValidCharNat (c.toNat - 32) := by
      left
      have := h.2
      omega
    have ht : (Char.ofNat (c.toNat - 32)).toNat = c.toNat - 32 := by
      rw [Char.ofNat, dif_pos hv]
      simp [Char.ofNatAux, Char.toNat, UInt32.ofNat, UInt32.toNat,
        BitVec.toNat_ofNatLt, UInt32.ofNat]
    rw [if_neg]
    rw [ht]
    have := h.1
    omega
  · rw [if_neg h, if_neg h]

theorem mem_pySplitAux_not_ws (l : List Char) :
    ∀ (acc : List Char), (∀ c ∈ acc, c.isWhitespace = false) →
    ∀ w ∈ pySplitAux l acc, ∀ c ∈ w, c.isWhitespace = false := by
  induction l with
  | nil =>
    intro acc hacc w hw c hc
    unfold pySplitAux at hw
    by_cases h : acc = []
    · simp [h] at hw
    · rw [if_neg h] at hw
      simp at hw
      subst hw
      exact hacc c (List.mem_reverse.mp hc)
  | cons d ds ih =>
    intro acc hacc w hw c hc
    unfold pySplitAux at hw
    by_cases hd : d.isWhitespace
    · rw [if_pos hd] at hw
      by_cases h : acc = []
      · rw [if_pos h] at hw
        exact ih [] (by simp) w hw c hc
      · rw [if_neg h] at hw
        rcases List.mem_cons.mp hw with h1 | h2
        · subst h1
          exact hacc c (List.mem_reverse.mp hc)
        · exact ih [] (by simp) w h2 c hc
    · rw [if_neg hd] at hw
      refine ih (d :: acc) ?_ w hw c hc
      intro x hx
      rcases List.mem_cons.mp hx with h1 | h2
      · subst h1
        exact Bool.eq_false_iff.mpr hd
      · exact hacc x h2

theorem mem_pySplitAux_sub (l : List Char) :
    ∀ (acc : List Char), ∀ w ∈ pySplitAux l acc, ∀ c ∈ w, c ∈ l ∨ c ∈ acc := by
  induction l with
  | nil =>
    intro acc w hw c hc
    unfold pySplitAux at hw
    by_cases h : acc = []
    · simp [h] at hw
    · rw [if_neg h] at hw
      simp at hw
      subst hw
      exact Or.inr (List.mem_reverse.mp hc)
  | cons d ds ih =>
    intro acc w hw c hc
    unfold pySplitAux at hw
    by_cases hd : d.isWhitespace
    · rw [if_pos hd] at hw
      by_cases h : acc = []
      · rw [if_pos h] at hw
        rcases ih [] w hw c hc with h1 | h2
        · exact Or.inl (List.mem_cons_of_mem d h1)
        · simp at h2
      · rw [if_neg h] at hw
        rcases List.mem_cons.mp hw with h1 | h2
        · subst h1
          exact Or.inr (List.mem_reverse.mp hc)
        · rcases ih [] w h2 c hc with h1 | h3
          · exact Or.inl (List.mem_cons_of_mem d h1)
          · simp at h3
    · rw [if_neg hd] at hw
      rcases ih (d :: acc) w hw c hc with h1 | h2
      · exact Or.inl (List.mem_cons_of_mem d h1)
      · rcases List.mem_cons.mp h2 with h3 | h4
        · exact Or.inl (h3 ▸ List.mem_cons_self d ds)
        · exact Or.inr h4

theorem pySplitAux_no_ws (l : List Char) :
    ∀ acc, (∀ c ∈ l, c.isWhitespace = false) →
    pySplitAux l acc = if l = [] ∧ acc = [] then [] else [acc.reverse ++ l] := by
  induction l with
  | nil =>
    intro acc _
    unfold pySplitAux
    by_cases h : acc = []
    · simp [h]
    · simp [h]
  | cons d ds ih =>
    intro acc hl
    unfold pySplitAux
    have hd : d.isWhitespace = false := hl d (List.mem_cons_self d ds)
    rw [if_neg (by simp [hd])]
    rw [ih (d :: acc) (fun c hc => hl c (List.mem_cons_of_mem d hc))]
    rw [if_neg (by simp)]
    simp

theorem pySplit_no_ws (l : List Char) (h : ∀ c ∈ l, c.isWhitespace = false) :
    pySplit l = if l = [] then [] else [l] := by
  unfold pySplit
  rw [pySplitAux_no_ws l [] h]
  simp

theorem dropWhile_eq_self_of_not (p : Char → Bool) (l : List Char)
    (h : ∀ c ∈ l, p c = false) : l.dropWhile p = l := by
  cases l with
  | nil => rfl
  | cons d ds =>
    rw [List.dropWhile_cons]
    simp [h d (List.mem_cons_self d ds)]

theorem pyStrip_eq_self (l : List Char)
    (h : ∀ c ∈ l, c.isWhitespace = false) : pyStrip l = l := by
  unfold pyStrip
  rw [dropWhile_eq_self_of_not _ l h]
  rw [dropWhile_eq_self_of_not _ l.reverse
    (fun c hc => h c (List.mem_reverse.mp hc))]
  exact List.reverse_reverse l

theorem pyUpper_eq_self (l : List Char)
    (h : ∀ c ∈ l, c.toUpper = c) : pyUpper l = l := by
  unfold pyUpper
  induction l with
  | nil => rfl
  | cons d ds ih =>
    rw [List.map_cons]
    rw [h d (List.mem_cons_self d ds)]
    rw [ih (fun c hc => h c (List.mem_cons_of_mem d hc))]

theorem mem_joinUnderscore (ws : List (List Char)) (c : Char)
    (hc : c ∈ joinUnderscore ws) : c = '_' ∨ ∃ w ∈ ws, c ∈ w := by
  induction ws with
  | nil => simp [joinUnderscore] at hc
  | cons w ws ih =>
    cases ws with
    | nil =>
      right
      exact ⟨w, List.mem_cons_self w [], by simpa [joinUnderscore] using hc⟩
    | cons w2 rest =>
      unfold joinUnderscore at hc
      rcases List.mem_append.mp hc with h1 | h2
      · exact Or.inr ⟨w, List.mem_cons_self w _, h1⟩
      · rcases List.mem_cons.mp h2 with h3 | h4
        · exact Or.inl h3
        · rcases ih h4 with h5 | ⟨v, hv, hcv⟩
          · exact Or.inl h5
          · exact Or.inr ⟨v, List.mem_cons_of_mem w hv, hcv⟩

theorem mem_normKeyL (l : List Char) (c : Char) (hc : c ∈ normKeyL l) :
    c.isWhitespace = false ∧ c.toUpper = c := by
  unfold normKeyL at hc
  rcases mem_joinUnderscore _ c hc with h1 | ⟨w, hw, hcw⟩
  · subst h1
    exact ⟨by decide, by decide⟩
  · constructor
    · exact mem_pySplitAux_not_ws _ [] (by simp) w hw c hcw
    · have hsub := mem_pySplitAux_sub _ [] w hw c hcw
      rcases hsub with h2 | h3
      · unfold pyUpper at h2
        rcases List.mem_map.mp h2 with ⟨d, _, hd⟩
        rw [← hd]
        exact toUpper_idem d
      · simp at h3

/-! ### Lemmas on records and dict semantics -/

theorem keysOf_dictInsert (r : Record) (k : String) (v : Scalar) :
    keysOf (dictInsert r k v) =
      if k ∈ keysOf r then keysOf r else keysOf r ++ [k] := by
  unfold dictInsert
  by_cases h : k ∈ keysOf r
  · rw [if_pos h, if_pos h]
    unfold keysOf
    rw [List.map_map]
    apply List.map_congr_left
    intro kv _
    by_cases hk : kv.1 = k
    · simp [hk]
    · simp [hk]
  · rw [if_neg h, if_neg h]
    unfold keysOf
    simp

theorem nodup_keysOf_dictInsert (r : Record) (k : String) (v : Scalar)
    (h : (keysOf r).Nodup) : (keysOf (dictInsert r k v)).Nodup := by
  rw [keysOf_dictInsert]
  by_cases hk : k ∈ keysOf r
  · rwa [if_pos hk]
  · rw [if_neg hk]
    simp [List.nodup_append, h, hk]

theorem find?_map_upd_self {β : Type} (k : String) (v : β) :
    ∀ (r : List (String × β)), k ∈ r.map Prod.fst →
    ((r.map (fun kv => if kv.1 = k then (k, v) else kv)).find?
      (fun kv => kv.1 = k)) = some (k, v) := by
  intro r
  induction r with
  | nil => simp [keysOf]
  | cons kv rest ih =>
    intro h
    rw [List.map_cons]
    by_cases hk : kv.1 = k
    · rw [if_pos hk]
      simp [List.find?_cons]
    · rw [if_neg hk]
      rw [List.find?_cons]
      simp only [hk, decide_eq_true_eq, if_neg, decide_eq_false hk]
      apply ih
      rcases List.mem_cons.mp h with h1 | h2
      · exact absurd h1.symm hk
      · exact h2

theorem find?_map_upd_ne {β : Type} (k k' : String) (v : β)
    (hne : k' ≠ k) : ∀ (r : List (String × β)),
    ((r.map (fun kv => if kv.1 = k then (k, v) else kv)).find?
      (fun kv => kv.1 = k')) = r.find? (fun kv => kv.1 = k') := by
  intro r
  induction r with
  | nil => rfl
  | cons kv rest ih =>
    rw [List.map_cons, List.find?_cons, List.find?_cons]
    by_cases hk : kv.1 = k
    · rw [if_pos hk]
      have h1 : ((k, v).1 = k') = False := by
        simp
        exact fun h => absurd h.symm hne
      have h2 : (kv.1 = k') = False := by
        rw [hk]
        simp
        exact fun h => absurd h.symm hne
      simp only [h1, h2, decide_False]
      exact ih
    · rw [if_neg hk]
      by_cases hm : kv.1 = k'
      · simp [hm]
      · simp only [hm, decide_False]
        exact ih

theorem recFind?_dictInsert (r : Record) (k k' : String) (v : Scalar) :
    recFind? (dictInsert r k v) k' =
      if k' = k then some v else recFind? r k' := by
  unfold dictInsert recFind?
  by_cases hk' : k' = k
  · subst hk'
    rw [if_pos rfl]
    by_cases h : k' ∈ keysOf r
    · rw [if_pos h, find?_map_upd_self k' v r h]
      rfl
    · rw [if_neg h, List.find?_append]
      have hnone : r.find? (fun kv => kv.1 = k') = none := by
        rw [List.find?_eq_none]
        intro kv hkv
        simp
        intro hkeq
        exact h (hkeq ▸ List.mem_map_of_mem Prod.fst hkv)
      rw [hnone]
      simp [List.find?_cons]
  · rw [if_neg hk']
    by_cases h : k ∈ keysOf r
    · rw [if_pos h, find?_map_upd_ne k k' v hk' r]
    · rw [if_neg h, List.find?_append]
      have hnone : ([((k, v))].find? (fun kv => decide (kv.1 = k'))) = none := by
        rw [List.find?_eq_none]
        intro x hx
        simp at hx
        subst hx
        simp
        exact fun hc => hk' hc.symm
      rw [hnone]
      simp

theorem normRecord_foldl (r : List (String × Scalar)) :
    ∀ (acc : Record), (keysOf acc).Nodup →
    (keysOf (r.foldl
      (fun a kv => dictInsert a (normKey kv.1) kv.2) acc)).Nodup ∧
    ∀ c, recFind?
      (r.foldl (fun a kv => dictInsert a (normKey kv.1) kv.2) acc) c =
      (match (r.filter (fun kv => normKey kv.1 = c)).getLast? with
       | some kv2 => some kv2.2
       | none => recFind? acc c) := by
  induction r with
  | nil =>
    intro acc hacc
    exact ⟨hacc, fun c => by simp⟩
  | cons kv rest ih =>
    intro acc hacc
    rw [List.foldl_cons]
    have hstep := ih (dictInsert acc (normKey kv.1) kv.2)
      (nodup_keysOf_dictInsert acc (normKey kv.1) kv.2 hacc)
    refine ⟨hstep.1, fun c => ?_⟩
    rw [hstep.2 c, List.filter_cons]
    by_cases hmatch : normKey kv.1 = c
    · rw [if_pos (by simp [hmatch])]
      rw [List.getLast?_cons]
      cases hrest : (rest.filter (fun kv2 => normKey kv2.1 = c)).getLast? with
      | none =>
        simp only [hrest, Option.getD_none]
        rw [recFind?_dictInsert, if_pos hmatch.symm]
      | some kv2 =>
        simp [hrest]
    · rw [if_neg (by simp [hmatch])]
      cases hrest : (rest.filter (fun kv2 => normKey kv2.1 = c)).getLast? with
      | none =>
        simp only [hrest]
        rw [recFind?_dictInsert, if_neg (fun h => hmatch h.symm)]
      | some kv2 => simp [hrest]

theorem normKeyL_idem (l : List Char) : normKeyL (normKeyL l) = normKeyL l := by
  have hm := mem_normKeyL l
  have hstep : normKeyL (normKeyL l) =
      joinUnderscore (pySplit (pyUpper (pyStrip (normKeyL l)))) := rfl
  rw [hstep]
  rw [pyStrip_eq_self _ (fun c hc => (hm c hc).1)]
  rw [pyUpper_eq_self _ (fun c hc => (hm c hc).2)]
  rw [pySplit_no_ws _ (fun c hc => (hm c hc).1)]
  by_cases h : normKeyL l = []
  · rw [h]
    simp [joinUnderscore]
  · rw [if_neg h]
    simp [joinUnderscore]

theorem recFind?_isSome_of_mem (r : Record) (c : String)
    (h : c ∈ keysOf r) : ∃ w, recFind? r c = some w := by
  unfold keysOf at h
  rcases List.mem_map.mp h with ⟨kv, hkv, hk⟩
  unfold recFind?
  have hsome : (r.find? (fun kv2 => decide (kv2.1 = c))).isSome := by
    rw [List.find?_isSome]
    exact ⟨kv, hkv, by simp [hk]⟩
  rcases Option.isSome_iff_exists.mp hsome with ⟨kv2, hkv2⟩
  exact ⟨kv2.2, by rw [hkv2]; rfl⟩

theorem find?_filter_of_imp {α : Type} (p q : α → Bool) (l : List α)
    (h : ∀ x, p x = true → q x = true) :
    (l.filter q).find? p = l.find? p := by
  induction l with
  | nil => rfl
  | cons a rest ih =>
    rw [List.filter_cons]
    by_cases hq : q a
    · rw [if_pos hq, List.find?_cons, List.find?_cons]
      cases hp : p a
      · simp only [ih]
      · rfl
    · rw [if_neg hq, List.find?_cons]
      cases hp : p a
      · simp only [ih]
      · exact absurd (h a hp) hq

/-! ### Lemmas on frames and feature engineering -/

theorem str_append_cancel_left {a b c : String} (h : c ++ a = c ++ b) :
    a = b := by
  have hd : c.data ++ a.data = c.data ++ b.data := by
    have := congrArg String.data h
    simpa [String.data_append] using this
  exact String.ext (List.append_cancel_left hd)

theorem str_append_cancel_right {a b c : String} (h : a ++ c = b ++ c) :
    a = b := by
  have hd : a.data ++ c.data = b.data ++ c.data := by
    have := congrArg String.data h
    simpa [String.data_append] using this
  exact String.ext (List.append_cancel_right hd)

theorem append_suffix_ne (c : String) {s1 s2 : String} (h : s1 ≠ s2) :
    c ++ s1 ≠ c ++ s2 :=
  fun hh => h (str_append_cancel_left hh)

theorem append_base_ne {c1 c2 : String} (s : String) (h : c1 ≠ c2) :
    c1 ++ s ≠ c2 ++ s :=
  fun hh => h (str_append_cancel_right hh)

theorem colFind?_setCol_self (f : Frame) (c : String)
    (col : List Scalar) : colFind? (setCol f c col) c = some col := by
  unfold setCol colFind?
  by_cases h : c ∈ colsOf f
  · rw [if_pos h]
    rw [find?_map_upd_self c col f h]
    rfl
  · rw [if_neg h, List.find?_append]
    have hnone : f.find? (fun kv => decide (kv.1 = c)) = none := by
      rw [List.find?_eq_none]
      intro kv hkv
      simp
      intro hkeq
      exact h (hkeq ▸ List.mem_map_of_mem Prod.fst hkv)
    rw [hnone]
    simp [List.find?_cons]

theorem colFind?_setCol_other (f : Frame) (c c' : String)
    (col : List Scalar) (h : c' ≠ c) :
    colFind? (setCol f c col) c' = colFind? f c' := by
  unfold setCol colFind?
  by_cases hm : c ∈ colsOf f
  · rw [if_pos hm, find?_map_upd_ne c c' col h f]
  · rw [if_neg hm, List.find?_append]
    have hnone : [(c, col)].find? (fun kv => decide (kv.1 = c')) = none := by
      rw [List.find?_eq_none]
      intro kv hkv
      simp at hkv
      subst hkv
      simp
      exact fun hc => h hc.symm
    rw [hnone, Option.or_none]

theorem colFind?_eq_none_of_not_mem (f : Frame) (c : String)
    (h : c ∉ colsOf f) : colFind? f c = none := by
  unfold colFind?
  have hnone : f.find? (fun kv => decide (kv.1 = c)) = none := by
    rw [List.find?_eq_none]
    intro kv hkv
    simp
    intro hkeq
    exact h (hkeq ▸ List.mem_map_of_mem Prod.fst hkv)
  rw [hnone]
  rfl

theorem mem_colsOf_of_colFind? (f : Frame) (c : String)
    (col : List Scalar) (h : colFind? f c = some col) : c ∈ colsOf f := by
  by_contra hmem
  rw [colFind?_eq_none_of_not_mem f c hmem] at h
  exact Option.noConfusion h

/-- No amount column with a derived-name suffix appended equals an amount
column: no name in the fixed six-name set ends in a derived suffix. -/
theorem amt_suffix_ne_amt : ∀ c1 ∈ KNOWN_AMT_COLS, ∀ s ∈ AMT_SUFFIXES,
    ∀ c2 ∈ KNOWN_AMT_COLS, c1 ++ s ≠ c2 := by decide

/-- Derived amount-feature names never collide with a ratio column name. -/
theorem amt_suffix_ne_ratio : ∀ c ∈ KNOWN_AMT_COLS, ∀ s ∈ AMT_SUFFIXES,
    ∀ n ∈ DERIVED_RATIO_COLS, c ++ s ≠ n := by decide

/-- Ratio column names never collide with an amount column name. -/
theorem ratio_ne_amt : ∀ n ∈ DERIVED_RATIO_COLS, ∀ c ∈ KNOWN_AMT_COLS,
    n ≠ c := by decide

theorem addRatio_ok_preserves (df : Frame) (nN dN out : String)
    (lo hi : ℚ) (df2 : Frame)
    (h : addRatio df nN dN out lo hi = Except.ok df2) (name : String)
    (hname : name ≠ out) : colFind? df2 name = colFind? df name := by
  unfold addRatio at h
  split at h
  · cases hr : ratioCol ((colFind? df nN).getD [])
        ((colFind? df dN).getD []) lo hi with
    | error e =>
      rw [hr] at h
      exact Except.noConfusion h
    | ok rcol =>
      rw [hr] at h
      have h2 : Except.ok (setCol df out rcol) = Except.ok df2 := h
      injection h2 with h3
      rw [← h3]
      exact colFind?_setCol_other df out name rcol hname
  · injection h with h2
    rw [← h2]

theorem amtFeatureStep_preserves (cfg : Config) (df : Frame)
    (c name : String) (h1 : name ≠ c ++ "_CLIP")
    (h2 : name ≠ c ++ "_LOG1P") (h3 : name ≠ c ++ "_NEG_FLAG")
    (h4 : name ≠ c ++ "_ZERO_FLAG") :
    colFind? (amtFeatureStep cfg df c) name = colFind? df name := by
  unfold amtFeatureStep
  by_cases hm : c ∈ colsOf df
  · rw [if_pos hm]
    dsimp only
    rw [colFind?_setCol_other _ _ _ _ h4, colFind?_setCol_other _ _ _ _ h3,
      colFind?_setCol_other _ _ _ _ h2, colFind?_setCol_other _ _ _ _ h1]
  · rw [if_neg hm]

theorem amtFeatureStep_sets (cfg : Config) (df : Frame) (c : String)
    (col : List Scalar) (hcol : colFind? df c = some col) :
    colFind? (amtFeatureStep cfg df c) (c ++ "_CLIP") =
      some ((match lookupClip cfg c with
        | some hi => (col.map Scalar.toNumeric).map
            (fun v => FVal.clipHi v hi)
        | none => col.map Scalar.toNumeric).map Scalar.num) ∧
    colFind? (amtFeatureStep cfg df c) (c ++ "_LOG1P") =
      some ((match lookupClip cfg c with
        | some hi => (col.map Scalar.toNumeric).map
            (fun v => FVal.log1pApp cfg.log1p (FVal.clip2 v 0 hi))
        | none => (col.map Scalar.toNumeric).map
            (fun v => FVal.log1pApp cfg.log1p (FVal.clipLo v 0))).map
          Scalar.num) ∧
    colFind? (amtFeatureStep cfg df c) (c ++ "_NEG_FLAG") =
      some ((col.map Scalar.toNumeric).map (fun v =>
        Scalar.num (FVal.fin (if FVal.ltZero v then 1 else 0)))) ∧
    colFind? (amtFeatureStep cfg df c) (c ++ "_ZERO_FLAG") =
      some ((col.map Scalar.toNumeric).map (fun v =>
        Scalar.num (FVal.fin (if FVal.eqZero v then 1 else 0)))) := by
  have hmem : c ∈ colsOf df := mem_colsOf_of_colFind? df c col hcol
  have hne1 : c ++ "_CLIP" ≠ c ++ "_LOG1P" :=
    append_suffix_ne c (by decide)
  have hne2 : c ++ "_CLIP" ≠ c ++ "_NEG_FLAG" :=
    append_suffix_ne c (by decide)
  have hne3 : c ++ "_CLIP" ≠ c ++ "_ZERO_FLAG" :=
    append_suffix_ne c (by decide)
  have hne4 : c ++ "_LOG1P" ≠ c ++ "_NEG_FLAG" :=
    append_suffix_ne c (by decide)
  have hne5 : c ++ "_LOG1P" ≠ c ++ "_ZERO_FLAG" :=
    append_suffix_ne c (by decide)
  have hne6 : c ++ "_NEG_FLAG" ≠ c ++ "_ZERO_FLAG" :=
    append_suffix_ne c (by decide)
  unfold amtFeatureStep
  rw [if_pos hmem, hcol]
  dsimp only
  refine ⟨?_, ?_, ?_, ?_⟩
  · rw [colFind?_setCol_other _ _ _ _ hne3,
      colFind?_setCol_other _ _ _ _ hne2,
      colFind?_setCol_other _ _ _ _ hne1, colFind?_setCol_self]
    cases lookupClip cfg c <;> rfl
  · rw [colFind?_setCol_other _ _ _ _ hne5,
      colFind?_setCol_other _ _ _ _ hne4, colFind?_setCol_self]
    cases lookupClip cfg c <;> rfl
  · rw [colFind?_setCol_other _ _ _ _ hne6, colFind?_setCol_self]
    rfl
  · rw [colFind?_setCol_self]
    rfl

/-- Distinct amount columns (or distinct suffixes) give distinct derived
names. -/
theorem amt_suffix_inj : ∀ c1 ∈ KNOWN_AMT_COLS, ∀ c2 ∈ KNOWN_AMT_COLS,
    ∀ s1 ∈ AMT_SUFFIXES, ∀ s2 ∈ AMT_SUFFIXES,
    c1 ++ s1 = c2 ++ s2 → c1 = c2 ∧ s1 = s2 := by decide

theorem amtLoop_preserves (cfg : Config) :
    ∀ (l : List String) (df : Frame) (name : String),
    (∀ x ∈ l, ∀ s ∈ AMT_SUFFIXES, x ++ s ≠ name) →
    colFind? (l.foldl (amtFeatureStep cfg) df) name = colFind? df name := by
  intro l
  induction l with
  | nil =>
    intro df name _
    rfl
  | cons c0 rest ih =>
    intro df name hne
    rw [List.foldl_cons]
    rw [ih (amtFeatureStep cfg df c0) name
      (fun x hx => hne x (List.mem_cons_of_mem _ hx))]
    apply amtFeatureStep_preserves
    · exact (hne c0 (List.mem_cons_self _ _) "_CLIP" (by decide)).symm
    · exact (hne c0 (List.mem_cons_self _ _) "_LOG1P" (by decide)).symm
    · exact (hne c0 (List.mem_cons_self _ _) "_NEG_FLAG" (by decide)).symm
    · exact (hne c0 (List.mem_cons_self _ _) "_ZERO_FLAG" (by decide)).symm

theorem amtLoop_spec (cfg : Config) :
    ∀ (l : List String) (df : Frame) (c : String) (col : List Scalar),
    l.Nodup → (∀ x ∈ l, x ∈ KNOWN_AMT_COLS) → c ∈ l →
    colFind? df c = some col →
    colFind? (l.foldl (amtFeatureStep cfg) df) (c ++ "_CLIP") =
      some ((match lookupClip cfg c with
        | some hi => (col.map Scalar.toNumeric).map
            (fun v => FVal.clipHi v hi)
        | none => col.map Scalar.toNumeric).map Scalar.num) ∧
    colFind? (l.foldl (amtFeatureStep cfg) df) (c ++ "_LOG1P") =
      some ((match lookupClip cfg c with
        | some hi => (col.map Scalar.toNumeric).map
            (fun v => FVal.log1pApp cfg.log1p (FVal.clip2 v 0 hi))
        | none => (col.map Scalar.toNumeric).map
            (fun v => FVal.log1pApp cfg.log1p (FVal.clipLo v 0))).map
          Scalar.num) ∧
    colFind? (l.foldl (amtFeatureStep cfg) df) (c ++ "_NEG_FLAG") =
      some ((col.map Scalar.toNumeric).map (fun v =>
        Scalar.num (FVal.fin (if FVal.ltZero v then 1 else 0)))) ∧
    colFind? (l.foldl (amtFeatureStep cfg) df) (c ++ "_ZERO_FLAG") =
      some ((col.map Scalar.toNumeric).map (fun v =>
        Scalar.num (FVal.fin (if FVal.eqZero v then 1 else 0)))) := by
  intro l
  induction l with
  | nil =>
    intro df c col _ _ hc _
    simp at hc
  | cons c0 rest ih =>
    intro df c col hnodup hknown hc hcol
    rw [List.foldl_cons]
    rcases List.mem_cons.mp hc with hceq | hcrest
    · subst hceq
      have hsets := amtFeatureStep_sets cfg df c col hcol
      have hcnot : c ∉ rest := (List.nodup_cons.mp hnodup).1
      have hpres : ∀ s ∈ AMT_SUFFIXES,
          colFind? (rest.foldl (amtFeatureStep cfg)
            (amtFeatureStep cfg df c)) (c ++ s) =
          colFind? (amtFeatureStep cfg df c) (c ++ s) := by
        intro s hs
        apply amtLoop_preserves
        intro x hx s2 hs2 heq
        have hxk : x ∈ KNOWN_AMT_COLS := hknown x (List.mem_cons_of_mem _ hx)
        have hck : c ∈ KNOWN_AMT_COLS := hknown c (List.mem_cons_self _ _)
        have hxc : x ≠ c := fun he => hcnot (he ▸ hx)
        exact hxc (amt_suffix_inj x hxk c hck s2 hs2 s hs heq).1
      refine ⟨?_, ?_, ?_, ?_⟩
      · rw [hpres "_CLIP" (by decide)]
        exact hsets.1
      · rw [hpres "_LOG1P" (by decide)]
        exact hsets.2.1
      · rw [hpres "_NEG_FLAG" (by decide)]
        exact hsets.2.2.1
      · rw [hpres "_ZERO_FLAG" (by decide)]
        exact hsets.2.2.2
    · have hck : c ∈ KNOWN_AMT_COLS :=
        hknown c (List.mem_cons_of_mem _ hcrest)
      have hc0k : c0 ∈ KNOWN_AMT_COLS := hknown c0 (List.mem_cons_self _ _)
      have hstep : colFind? (amtFeatureStep cfg df c0) c = some col := by
        rw [amtFeatureStep_preserves cfg df c0 c
          (Ne.symm (amt_suffix_ne_amt c0 hc0k "_CLIP" (by decide) c hck))
          (Ne.symm (amt_suffix_ne_amt c0 hc0k "_LOG1P" (by decide) c hck))
          (Ne.symm (amt_suffix_ne_amt c0 hc0k "_NEG_FLAG" (by decide) c hck))
          (Ne.symm (amt_suffix_ne_amt c0 hc0k "_ZERO_FLAG" (by decide)
            c hck))]
        exact hcol
      exact ih (amtFeatureStep cfg df c0) c col
        (List.nodup_cons.mp hnodup).2
        (fun x hx => hknown x (List.mem_cons_of_mem _ hx)) hcrest hstep

theorem engineerFrame_ok_parts (cfg : Config) (df E : Frame)
    (h : engineerFrame cfg df = Except.ok E) :
    ∃ df1 df2 df3,
      addRatio df "PATIENT_SHARE" "CLAIMED_AMOUNT" "PATIENT_SHARE_PCT" 0 5
        = Except.ok df1 ∧
      addRatio df1 "ACCEPTED_TAX" "BILLED_TAX" "TAX_ACCEPT_RATIO" 0 2
        = Except.ok df2 ∧
      addRatio df2 "SYSTEM_CLAIMED_AMOUNT" "CLAIMED_AMOUNT"
        "SYSTEM_TO_CLAIMED_RATIO" 0 5 = Except.ok df3 ∧
      E = (amtForFeats cfg).foldl (amtFeatureStep cfg) df3 := by
  unfold engineerFrame at h
  cases h1 : addRatio df "PATIENT_SHARE" "CLAIMED_AMOUNT"
      "PATIENT_SHARE_PCT" 0 5 with
  | error e =>
    rw [h1] at h
    exact Except.noConfusion h
  | ok df1 =>
    rw [h1] at h
    have hb1 : (do
        let df2 ← addRatio df1 "ACCEPTED_TAX" "BILLED_TAX"
          "TAX_ACCEPT_RATIO" 0 2
        let df3 ← addRatio df2 "SYSTEM_CLAIMED_AMOUNT" "CLAIMED_AMOUNT"
          "SYSTEM_TO_CLAIMED_RATIO" 0 5
        Except.ok ((amtForFeats cfg).foldl (amtFeatureStep cfg) df3)) =
        Except.ok E := h
    cases h2 : addRatio df1 "ACCEPTED_TAX" "BILLED_TAX"
        "TAX_ACCEPT_RATIO" 0 2 with
    | error e =>
      rw [h2] at hb1
      exact Except.noConfusion hb1
    | ok df2 =>
      rw [h2] at hb1
      have hb2 : (do
          let df3 ← addRatio df2 "SYSTEM_CLAIMED_AMOUNT" "CLAIMED_AMOUNT"
            "SYSTEM_TO_CLAIMED_RATIO" 0 5
          Except.ok ((amtForFeats cfg).foldl (amtFeatureStep cfg) df3)) =
          Except.ok E := hb1
      cases h3 : addRatio df2 "SYSTEM_CLAIMED_AMOUNT" "CLAIMED_AMOUNT"
          "SYSTEM_TO_CLAIMED_RATIO" 0 5 with
      | error e =>
        rw [h3] at hb2
        exact Except.noConfusion hb2
      | ok df3 =>
        rw [h3] at hb2
        have hb3 : Except.ok
            ((amtForFeats cfg).foldl (amtFeatureStep cfg) df3) =
            Except.ok E := hb2
        injection hb3 with h4
        exact ⟨df1, df2, df3, rfl, h2, h3, h4.symm⟩

theorem colFind?_isSome_of_mem (f : Frame) (c : String)
    (h : c ∈ colsOf f) : ∃ col, colFind? f c = some col := by
  unfold colsOf at h
  rcases List.mem_map.mp h with ⟨kv, hkv, hk⟩
  unfold colFind?
  have hsome : (f.find? (fun kv2 => decide (kv2.1 = c))).isSome := by
    rw [List.find?_isSome]
    exact ⟨kv, hkv, by simp [hk]⟩
  rcases Option.isSome_iff_exists.mp hsome with ⟨kv2, hkv2⟩
  exact ⟨kv2.2, by rw [hkv2]; rfl⟩

theorem colFind?_map_mk (bf : List String) (g : String → List Scalar)
    (c : String) (h : c ∈ bf) :
    colFind? (bf.map (fun c2 => (c2, g c2))) c = some (g c) := by
  induction bf with
  | nil => simp at h
  | cons b rest ih =>
    rw [List.map_cons]
    unfold colFind?
    rw [List.find?_cons]
    by_cases hb : b = c
    · subst hb
      simp
    · have hd : (decide ((b, g b).1 = c)) = false := by simp [hb]
      rw [hd]
      apply ih
      rcases List.mem_cons.mp h with h1 | h2
      · exact absurd h1.symm hb
      · exact h2

theorem clip2_nan_or_bounded (x : FVal) (lo hi : ℚ) (hlohi : lo ≤ hi) :
    FVal.clip2 x lo hi = FVal.nan ∨
    ∃ q, FVal.clip2 x lo hi = FVal.fin q ∧ lo ≤ q ∧ q ≤ hi := by
  cases x with
  | nan => exact Or.inl rfl
  | pinf => exact Or.inr ⟨hi, rfl, hlohi, le_refl hi⟩
  | ninf => exact Or.inr ⟨lo, rfl, le_refl lo, hlohi⟩
  | fin q =>
    refine Or.inr ⟨max lo (min q hi), rfl, le_max_left _ _, ?_⟩
    exact max_le hlohi (min_le_right q hi)

theorem mem_zipWith_exists {α β γ : Type} (f : α → β → γ) :
    ∀ (as : List α) (bs : List β) (v : γ), v ∈ List.zipWith f as bs →
    ∃ x y, v = f x y := by
  intro as
  induction as with
  | nil =>
    intro bs v hv
    simp at hv
  | cons a rest ih =>
    intro bs v hv
    cases bs with
    | nil => simp at hv
    | cons b bs2 =>
      rw [List.zipWith_cons_cons] at hv
      rcases List.mem_cons.mp hv with h1 | h2
      · exact ⟨a, b, h1⟩
      · exact ih bs2 v h2

theorem ratioCol_ok_parts (numc denc : List Scalar) (lo hi : ℚ)
    (out : List Scalar) (h : ratioCol numc denc lo hi = Except.ok out) :
    ∃ fa fb, colToF numc = Except.ok fa ∧ colToF denc = Except.ok fb ∧
      out = List.zipWith (fun x y =>
        Scalar.num (FVal.clip2 (FVal.div x (FVal.addConst y eps)) lo hi))
        fa fb := by
  unfold ratioCol at h
  cases h1 : colToF numc with
  | error e =>
    rw [h1] at h
    exact Except.noConfusion h
  | ok fa =>
    rw [h1] at h
    have hb1 : (do
        let b ← colToF denc
        Except.ok (List.zipWith (fun x y => Scalar.num
          (FVal.clip2 (FVal.div x (FVal.addConst y eps)) lo hi)) fa b)) =
        Except.ok out := h
    cases h2 : colToF denc with
    | error e =>
      rw [h2] at hb1
      exact Except.noConfusion hb1
    | ok fb =>
      rw [h2] at hb1
      have hb2 : Except.ok (List.zipWith (fun x y => Scalar.num
          (FVal.clip2 (FVal.div x (FVal.addConst y eps)) lo hi)) fa fb) =
          Except.ok out := hb1
      injection hb2 with h3
      exact ⟨fa, fb, rfl, rfl, h3.symm⟩

theorem addRatio_ok_set (df : Frame) (nN dN out : String) (lo hi : ℚ)
    (df2 : Frame) (h : addRatio df nN dN out lo hi = Except.ok df2)
    (hnm : nN ∈ colsOf df) (hdm : dN ∈ colsOf df) :
    ∃ a b fa fb, colFind? df nN = some a ∧ colFind? df dN = some b ∧
      colToF a = Except.ok fa ∧ colToF b = Except.ok fb ∧
      colFind? df2 out = some (List.zipWith (fun x y =>
        Scalar.num (FVal.clip2 (FVal.div x (FVal.addConst y eps)) lo hi))
        fa fb) := by
  rcases colFind?_isSome_of_mem df nN hnm with ⟨a, ha⟩
  rcases colFind?_isSome_of_mem df dN hdm with ⟨b, hb⟩
  unfold addRatio at h
  rw [if_pos ⟨hnm, hdm⟩, ha, hb] at h
  have h' : (do
      let col ← ratioCol a b lo hi
      Except.ok (setCol df out col)) = Except.ok df2 := h
  cases hr : ratioCol a b lo hi with
  | error e =>
    rw [hr] at h'
    exact Except.noConfusion h'
  | ok rcol =>
    rw [hr] at h'
    have h'' : Except.ok (setCol df out rcol) = Except.ok df2 := h'
    injection h'' with h3
    rcases ratioCol_ok_parts a b lo hi rcol hr with ⟨fa, fb, hfa, hfb, hout⟩
    refine ⟨a, b, fa, fb, ha, hb, hfa, hfb, ?_⟩
    rw [← h3, ← hout]
    exact colFind?_setCol_self df out rcol

theorem addRatio_ok_mem (df : Frame) (nN dN out : String) (lo hi : ℚ)
    (df2 : Frame) (h : addRatio df nN dN out lo hi = Except.ok df2)
    (x : String) (hx : x ≠ out) : x ∈ colsOf df2 ↔ x ∈ colsOf df := by
  have hpres := addRatio_ok_preserves df nN dN out lo hi df2 h x hx
  constructor
  · intro hm
    rcases colFind?_isSome_of_mem df2 x hm with ⟨col, hc⟩
    exact mem_colsOf_of_colFind? df x col (hpres.symm.trans hc)
  · intro hm
    rcases colFind?_isSome_of_mem df x hm with ⟨col, hc⟩
    exact mem_colsOf_of_colFind? df2 x col (hpres.trans hc)

/-! ### Claim theorems -/

/-- C8: key normalization (trim whitespace, uppercase, collapse internal
whitespace runs to single underscores) is idempotent: for every string key
`k`, `_norm_key(_norm_key(k)) = _norm_key(k)`, so normalizing an
already-normalized key set produces the same set. -/
theorem c8_norm_key_idempotent (k : String) :
    normKey (normKey k) = normKey k := by
  unfold normKey
  exact congrArg String.mk (normKeyL_idem k.data)

/-- C10: when distinct raw keys of one record normalize to the same
canonical key, normalization does not fail (it is a total function) and
exactly one entry survives per canonical key: the normalized record's keys
are duplicate-free, and the value found under a canonical key `c` is the
value of the last entry (in the record's iteration order) whose key
normalizes to `c` — every earlier colliding value is silently discarded. -/
theorem c10_collision_last_key_wins (r : Record) (c : String) :
    (keysOf (normRecord r)).Nodup ∧
    recFind? (normRecord r) c =
      ((r.filter (fun kv => normKey kv.1 = c)).getLast?).map Prod.snd := by
  have h := normRecord_foldl r [] (by simp [keysOf])
  unfold normRecord
  refine ⟨h.1, ?_⟩
  rw [h.2 c]
  cases hl : (r.filter (fun kv => normKey kv.1 = c)).getLast? with
  | none => simp [recFind?]
  | some kv2 => simp

/-- C1: for every payload that is a JSON object or a list of JSON objects
(`rs` the record list) on which feature construction succeeds, the frame
produced by `_to_feature_frame` has exactly the `base_features` columns in
exactly the declared order (hence exactly `len(base_features)` of them),
regardless of which input columns are present; and every base feature
absent from the engineered frame appears as a column of missing-value
markers (NaN). -/
theorem c1_feature_frame_shape (cfg : Config) (p : Payload) (F E : Frame)
    (rs : List Record) (hrs : payloadRecords p = Except.ok rs)
    (hE : enrichedOf cfg p = Except.ok E)
    (hF : toFeatureFrame cfg p = Except.ok F) :
    colsOf F = cfg.baseFeatures ∧
    F.length = cfg.baseFeatures.length ∧
    (∀ c ∈ cfg.baseFeatures, c ∉ colsOf E →
      colFind? F c =
        some (List.replicate rs.length (Scalar.num FVal.nan))) := by
  unfold toFeatureFrame at hF
  unfold enrichedOf at hE
  rw [hrs] at hF hE
  have hE2 : engineerFrame cfg (buildFrame (normalizedRecords cfg rs)) =
      Except.ok E := hE
  cases hEF : engineerFrame cfg (buildFrame (normalizedRecords cfg rs)) with
  | error e =>
    rw [hEF] at hE2
    exact Except.noConfusion hE2
  | ok E2 =>
    rw [hEF] at hE2
    injection hE2 with hE3
    subst hE3
    have hFr : (do
        let enriched ← engineerFrame cfg
          (buildFrame (normalizedRecords cfg rs))
        Except.ok (cfg.baseFeatures.map (fun c =>
          (c, (colFind? enriched c).getD
            (List.replicate rs.length (Scalar.num FVal.nan)))))) =
        Except.ok F := hF
    rw [hEF] at hFr
    have hF2 : Except.ok (cfg.baseFeatures.map (fun c =>
        (c, (colFind? E2 c).getD
          (List.replicate rs.length (Scalar.num FVal.nan))))) =
        Except.ok F := hFr
    injection hF2 with hF3
    subst hF3
    refine ⟨?_, ?_, ?_⟩
    · unfold colsOf
      rw [List.map_map]
      have hcomp : (Prod.fst ∘ fun c => (c, (colFind? E2 c).getD
          (List.replicate rs.length (Scalar.num FVal.nan)))) =
          fun c : String => c := rfl
      rw [hcomp]
      exact List.map_id cfg.baseFeatures
    · rw [List.length_map]
    · intro c hcmem hcnot
      rw [colFind?_map_mk cfg.baseFeatures _ c hcmem]
      rw [colFind?_eq_none_of_not_mem E2 c hcnot]
      rfl

/-- C1 witness: a record whose only (normalized and aliased) column is
`SRV_DESC`; every other base feature is absent from the engineered frame
and comes back as a NaN column, in declared order. -/
theorem c1_feature_frame_shape_witness :
    (payloadRecords (Payload.obj [("service  desc", Scalar.str "x")]) =
      Except.ok [[("service  desc", Scalar.str "x")]] ∧
     enrichedOf demoConfig
        (Payload.obj [("service  desc", Scalar.str "x")]) =
      Except.ok [("SRV_DESC", [Scalar.str "x"])] ∧
     toFeatureFrame demoConfig
        (Payload.obj [("service  desc", Scalar.str "x")]) =
      Except.ok
        [("CLAIMED_AMOUNT", [Scalar.num FVal.nan]),
         ("PATIENT_SHARE", [Scalar.num FVal.nan]),
         ("PATIENT_SHARE_PCT", [Scalar.num FVal.nan]),
         ("CLAIMED_AMOUNT_CLIP", [Scalar.num FVal.nan]),
         ("CLAIMED_AMOUNT_LOG1P", [Scalar.num FVal.nan]),
         ("CLAIMED_AMOUNT_NEG_FLAG", [Scalar.num FVal.nan]),
         ("CLAIMED_AMOUNT_ZERO_FLAG", [Scalar.num FVal.nan]),
         ("SRV_DESC", [Scalar.str "x"])]) ∧
    colsOf
        [("CLAIMED_AMOUNT", [Scalar.num FVal.nan]),
         ("PATIENT_SHARE", [Scalar.num FVal.nan]),
         ("PATIENT_SHARE_PCT", [Scalar.num FVal.nan]),
         ("CLAIMED_AMOUNT_CLIP", [Scalar.num FVal.nan]),
         ("CLAIMED_AMOUNT_LOG1P", [Scalar.num FVal.nan]),
         ("CLAIMED_AMOUNT_NEG_FLAG", [Scalar.num FVal.nan]),
         ("CLAIMED_AMOUNT_ZERO_FLAG", [Scalar.num FVal.nan]),
         ("SRV_DESC", [Scalar.str "x"])] = demoConfig.baseFeatures ∧
    colFind?
        [("CLAIMED_AMOUNT", [Scalar.num FVal.nan]),
         ("PATIENT_SHARE", [Scalar.num FVal.nan]),
         ("PATIENT_SHARE_PCT", [Scalar.num FVal.nan]),
         ("CLAIMED_AMOUNT_CLIP", [Scalar.num FVal.nan]),
         ("CLAIMED_AMOUNT_LOG1P", [Scalar.num FVal.nan]),
         ("CLAIMED_AMOUNT_NEG_FLAG", [Scalar.num FVal.nan]),
         ("CLAIMED_AMOUNT_ZERO_FLAG", [Scalar.num FVal.nan]),
         ("SRV_DESC", [Scalar.str "x"])] "CLAIMED_AMOUNT" =
      some (List.replicate 1 (Scalar.num FVal.nan)) := by
  have happ := c1_feature_frame_shape demoConfig
    (Payload.obj [("service  desc", Scalar.str "x")])
    [("CLAIMED_AMOUNT", [Scalar.num FVal.nan]),
     ("PATIENT_SHARE", [Scalar.num FVal.nan]),
     ("PATIENT_SHARE_PCT", [Scalar.num FVal.nan]),
     ("CLAIMED_AMOUNT_CLIP", [Scalar.num FVal.nan]),
     ("CLAIMED_AMOUNT_LOG1P", [Scalar.num FVal.nan]),
     ("CLAIMED_AMOUNT_NEG_FLAG", [Scalar.num FVal.nan]),
     ("CLAIMED_AMOUNT_ZERO_FLAG", [Scalar.num FVal.nan]),
     ("SRV_DESC", [Scalar.str "x"])]
    [("SRV_DESC", [Scalar.str "x"])]
    [[("service  desc", Scalar.str "x")]] rfl rfl rfl
  exact ⟨⟨rfl, rfl, rfl⟩, happ.1, happ.2.2 "CLAIMED_AMOUNT" (by decide)
    (by decide)⟩

/-- C2: for every column `c` of the fixed six-name amount set that is
present in the frame and eligible (member of `base_features` or
`num_cols`), with `v` the numeric coercion of each cell (non-numeric
coerces to the missing marker NaN without raising): when a clip bound `hi`
exists in the clip stats, `c_CLIP = min(v, hi)` (`clipHi`, NaN
propagating) and `c_LOG1P = log1p(clip(v, 0, hi))`; otherwise `c_CLIP = v`
unchanged and `c_LOG1P = log1p(max(v, 0))`; in both cases
`c_NEG_FLAG = 1` iff `v < 0` else `0` and `c_ZERO_FLAG = 1` iff `v == 0`
else `0` (NaN comparing false). -/
theorem c2_amount_features (cfg : Config) (df E : Frame) (c : String)
    (hc : c ∈ KNOWN_AMT_COLS)
    (helig : c ∈ cfg.baseFeatures ∨ c ∈ cfg.numCols)
    (col : List Scalar) (hcol : colFind? df c = some col)
    (hE : engineerFrame cfg df = Except.ok E) :
    colFind? E (c ++ "_CLIP") =
      some ((match lookupClip cfg c with
        | some hi => (col.map Scalar.toNumeric).map
            (fun v => FVal.clipHi v hi)
        | none => col.map Scalar.toNumeric).map Scalar.num) ∧
    colFind? E (c ++ "_LOG1P") =
      some ((match lookupClip cfg c with
        | some hi => (col.map Scalar.toNumeric).map
            (fun v => FVal.log1pApp cfg.log1p (FVal.clip2 v 0 hi))
        | none => (col.map Scalar.toNumeric).map
            (fun v => FVal.log1pApp cfg.log1p (FVal.clipLo v 0))).map
          Scalar.num) ∧
    colFind? E (c ++ "_NEG_FLAG") =
      some ((col.map Scalar.toNumeric).map (fun v =>
        Scalar.num (FVal.fin (if FVal.ltZero v then 1 else 0)))) ∧
    colFind? E (c ++ "_ZERO_FLAG") =
      some ((col.map Scalar.toNumeric).map (fun v =>
        Scalar.num (FVal.fin (if FVal.eqZero v then 1 else 0)))) := by
  rcases engineerFrame_ok_parts cfg df E hE with
    ⟨df1, df2, df3, h1, h2, h3, hEeq⟩
  subst hEeq
  have hcol1 : colFind? df1 c = some col := by
    rw [addRatio_ok_preserves df _ _ _ _ _ df1 h1 c
      (Ne.symm (ratio_ne_amt "PATIENT_SHARE_PCT" (by decide) c hc))]
    exact hcol
  have hcol2 : colFind? df2 c = some col := by
    rw [addRatio_ok_preserves df1 _ _ _ _ _ df2 h2 c
      (Ne.symm (ratio_ne_amt "TAX_ACCEPT_RATIO" (by decide) c hc))]
    exact hcol1
  have hcol3 : colFind? df3 c = some col := by
    rw [addRatio_ok_preserves df2 _ _ _ _ _ df3 h3 c
      (Ne.symm (ratio_ne_amt "SYSTEM_TO_CLAIMED_RATIO" (by decide) c hc))]
    exact hcol2
  have hmemamt : c ∈ amtForFeats cfg := by
    unfold amtForFeats
    rw [List.mem_filter]
    refine ⟨hc, ?_⟩
    simpa using helig
  have hnodup : (amtForFeats cfg).Nodup :=
    List.Nodup.filter _ (by decide)
  have hsub : ∀ x ∈ amtForFeats cfg, x ∈ KNOWN_AMT_COLS :=
    fun x hx => (List.mem_filter.mp hx).1
  exact amtLoop_spec cfg (amtForFeats cfg) df3 c col hnodup hsub
    hmemamt hcol3

/-- C2 witness: the spec's worked example — `CLAIMED_AMOUNT = 5000` with
clip bound 1000 gives `CLAIMED_AMOUNT_CLIP = 1000`,
`CLAIMED_AMOUNT_LOG1P = log1p 1000`, and zero flags. -/
theorem c2_amount_features_witness :
    ("CLAIMED_AMOUNT" ∈ KNOWN_AMT_COLS ∧
      ("CLAIMED_AMOUNT" ∈ demoConfig.baseFeatures ∨
        "CLAIMED_AMOUNT" ∈ demoConfig.numCols) ∧
      colFind? [("CLAIMED_AMOUNT", [Scalar.num (FVal.fin 5000)])]
        "CLAIMED_AMOUNT" = some [Scalar.num (FVal.fin 5000)] ∧
      engineerFrame demoConfig
        [("CLAIMED_AMOUNT", [Scalar.num (FVal.fin 5000)])] =
        Except.ok
          [("CLAIMED_AMOUNT", [Scalar.num (FVal.fin 5000)]),
           ("CLAIMED_AMOUNT_CLIP", [Scalar.num (FVal.fin 1000)]),
           ("CLAIMED_AMOUNT_LOG1P",
             [Scalar.num (FVal.fin (demoConfig.log1p 1000))]),
           ("CLAIMED_AMOUNT_NEG_FLAG", [Scalar.num (FVal.fin 0)]),
           ("CLAIMED_AMOUNT_ZERO_FLAG", [Scalar.num (FVal.fin 0)])]) ∧
    colFind?
        [("CLAIMED_AMOUNT", [Scalar.num (FVal.fin 5000)]),
         ("CLAIMED_AMOUNT_CLIP", [Scalar.num (FVal.fin 1000)]),
         ("CLAIMED_AMOUNT_LOG1P",
           [Scalar.num (FVal.fin (demoConfig.log1p 1000))]),
         ("CLAIMED_AMOUNT_NEG_FLAG", [Scalar.num (FVal.fin 0)]),
         ("CLAIMED_AMOUNT_ZERO_FLAG", [Scalar.num (FVal.fin 0)])]
        ("CLAIMED_AMOUNT" ++ "_CLIP") =
      some [Scalar.num (FVal.fin 1000)] := by
  have happ := c2_amount_features demoConfig
    [("CLAIMED_AMOUNT", [Scalar.num (FVal.fin 5000)])]
    [("CLAIMED_AMOUNT", [Scalar.num (FVal.fin 5000)]),
     ("CLAIMED_AMOUNT_CLIP", [Scalar.num (FVal.fin 1000)]),
     ("CLAIMED_AMOUNT_LOG1P",
       [Scalar.num (FVal.fin (demoConfig.log1p 1000))]),
     ("CLAIMED_AMOUNT_NEG_FLAG", [Scalar.num (FVal.fin 0)]),
     ("CLAIMED_AMOUNT_ZERO_FLAG", [Scalar.num (FVal.fin 0)])]
    "CLAIMED_AMOUNT" (by decide) (by decide)
    [Scalar.num (FVal.fin 5000)] (by decide) rfl
  exact ⟨⟨by decide, by decide, by decide, rfl⟩,
    happ.1.trans (by decide)⟩

/-- C7: in the normalizer, `SERVICE_DESC` is renamed to `SRV_DESC` exactly
when `SRV_DESC` is among the declared base features, the record has a
`SERVICE_DESC` key, and no `SRV_DESC` key; the renamed entry keeps
`SERVICE_DESC`'s value, and no other key is ever aliased (every key other
than these two looks up to the same value before and after). -/
theorem c7_service_desc_alias (feats : List String) (r : Record) :
    (("SERVICE_DESC" ∈ keysOf r ∧ "SRV_DESC" ∈ feats ∧
        "SRV_DESC" ∉ keysOf r) →
      recFind? (aliasSrv feats r) "SRV_DESC" = recFind? r "SERVICE_DESC" ∧
      "SERVICE_DESC" ∉ keysOf (aliasSrv feats r)) ∧
    (¬("SERVICE_DESC" ∈ keysOf r ∧ "SRV_DESC" ∈ feats ∧
        "SRV_DESC" ∉ keysOf r) →
      aliasSrv feats r = r) ∧
    (∀ k, k ≠ "SERVICE_DESC" → k ≠ "SRV_DESC" →
      recFind? (aliasSrv feats r) k = recFind? r k) := by
  refine ⟨?_, ?_, ?_⟩
  · intro hc
    unfold aliasSrv
    rw [if_pos hc]
    constructor
    · unfold recFind?
      rw [List.find?_append]
      have hnone : ((r.filter (fun kv => kv.1 ≠ "SERVICE_DESC")).find?
          (fun kv => decide (kv.1 = "SRV_DESC"))) = none := by
        rw [List.find?_eq_none]
        intro kv hkv
        simp
        intro he
        exact hc.2.2 (he ▸ List.mem_map_of_mem Prod.fst
          (List.mem_of_mem_filter hkv))
      rw [hnone]
      simp [List.find?_cons]
      rcases recFind?_isSome_of_mem r "SERVICE_DESC" hc.1 with ⟨w, hw⟩
      have hw2 : Option.map Prod.snd
          (List.find? (fun kv => decide (kv.1 = "SERVICE_DESC")) r) =
          some w := hw
      rw [hw2]
      simp
    · unfold keysOf
      rw [List.map_append]
      intro hmem
      rcases List.mem_append.mp hmem with h1 | h2
      · rcases List.mem_map.mp h1 with ⟨kv, hkv, hk⟩
        have := List.of_mem_filter hkv
        simp [hk] at this
      · simp at h2
  · intro hc
    unfold aliasSrv
    rw [if_neg hc]
  · intro k hk1 hk2
    unfold aliasSrv
    by_cases hc : "SERVICE_DESC" ∈ keysOf r ∧ "SRV_DESC" ∈ feats ∧
        "SRV_DESC" ∉ keysOf r
    · rw [if_pos hc]
      unfold recFind?
      rw [List.find?_append]
      have hnone : ∀ v : Scalar,
          (([("SRV_DESC", v)].find? (fun kv => decide (kv.1 = k)))) =
            none := by
        intro v
        rw [List.find?_eq_none]
        intro kv hkv
        simp at hkv
        subst hkv
        simp
        exact fun h => hk2 h.symm
      rw [hnone, Option.or_none]
      rw [find?_filter_of_imp]
      intro kv hkv
      simp at hkv
      simp [hkv]
      exact fun h => hk1 (h ▸ rfl)
    · rw [if_neg hc]

/-- C7 witness: the alias fires on a concrete record that has
`SERVICE_DESC`, no `SRV_DESC`, and `SRV_DESC` among the base features. -/
theorem c7_service_desc_alias_witness :
    ("SERVICE_DESC" ∈ keysOf [("SERVICE_DESC", Scalar.str "x")] ∧
      "SRV_DESC" ∈ ["SRV_DESC"] ∧
      "SRV_DESC" ∉ keysOf [("SERVICE_DESC", Scalar.str "x")]) ∧
    recFind? (aliasSrv ["SRV_DESC"] [("SERVICE_DESC", Scalar.str "x")])
        "SRV_DESC" =
      recFind? [("SERVICE_DESC", Scalar.str "x")] "SERVICE_DESC" :=
  ⟨by decide,
    ((c7_service_desc_alias ["SRV_DESC"]
      [("SERVICE_DESC", Scalar.str "x")]).1 (by decide)).1⟩

/-- C3 counterexample: with `PATIENT_SHARE = 0` and
`CLAIMED_AMOUNT = -1e-9` (both source columns present and numeric), the
denominator `CLAIMED_AMOUNT + 1e-9` is exactly zero, `0/0` is NaN, and
`clip` propagates NaN, so the produced `PATIENT_SHARE_PCT` value is NaN —
which does not lie in `[0, 5]`; the claim that the produced ratio values
are always bounded, for any inputs including missing values, fails. -/
theorem c3_ratio_bounds_counterexample :
    engineerFrame ⟨[], [], none, 0, id⟩
        [("PATIENT_SHARE", [Scalar.num (FVal.fin 0)]),
         ("CLAIMED_AMOUNT", [Scalar.num (FVal.fin (-eps))])] =
      Except.ok
        [("PATIENT_SHARE", [Scalar.num (FVal.fin 0)]),
         ("CLAIMED_AMOUNT", [Scalar.num (FVal.fin (-eps))]),
         ("PATIENT_SHARE_PCT", [Scalar.num FVal.nan])] ∧
    colFind?
        [("PATIENT_SHARE", [Scalar.num (FVal.fin 0)]),
         ("CLAIMED_AMOUNT", [Scalar.num (FVal.fin (-eps))]),
         ("PATIENT_SHARE_PCT", [Scalar.num FVal.nan])]
        "PATIENT_SHARE_PCT" = some [Scalar.num FVal.nan] ∧
    ¬ (∃ q, Scalar.num FVal.nan = Scalar.num (FVal.fin q) ∧
        0 ≤ q ∧ q ≤ 5) := by
  refine ⟨?_, by decide, ?_⟩
  · have hadd : FVal.addConst (FVal.fin (-eps)) eps = FVal.fin 0 := by
      unfold FVal.addConst
      norm_num
    have hclip : FVal.clip2 (FVal.div (FVal.fin 0)
        (FVal.addConst (FVal.fin (-eps)) eps)) 0 5 = FVal.nan := by
      rw [hadd]
      rfl
    have h0 : engineerFrame ⟨[], [], none, 0, id⟩
        [("PATIENT_SHARE", [Scalar.num (FVal.fin 0)]),
         ("CLAIMED_AMOUNT", [Scalar.num (FVal.fin (-eps))])] =
        Except.ok
          [("PATIENT_SHARE", [Scalar.num (FVal.fin 0)]),
           ("CLAIMED_AMOUNT", [Scalar.num (FVal.fin (-eps))]),
           ("PATIENT_SHARE_PCT", [Scalar.num (FVal.clip2 (FVal.div
             (FVal.fin 0) (FVal.addConst (FVal.fin (-eps)) eps)) 0 5)])] :=
      rfl
    rw [h0, hclip]
  · rintro ⟨q, hq, _⟩
    injection hq with hq2
    exact FVal.noConfusion hq2

/-- C3 (amended): whenever the derived ratio columns are produced (both
source columns present), each value is computed element-wise as
`clip(numerator / (denominator + 1e-9), lo, hi)` and is either the
missing marker NaN (when an operand is missing, or the guarded denominator
is exactly zero with a zero numerator) or a finite value within the
declared range — `PATIENT_SHARE_PCT` in `[0,5]`, `TAX_ACCEPT_RATIO` in
`[0,2]`, `SYSTEM_TO_CLAIMED_RATIO` in `[0,5]`. -/
theorem c3_ratio_clip_bounds (cfg : Config) (df E : Frame)
    (hE : engineerFrame cfg df = Except.ok E) :
    ("PATIENT_SHARE" ∈ colsOf df → "CLAIMED_AMOUNT" ∈ colsOf df →
      ∃ a b fa fb, colFind? df "PATIENT_SHARE" = some a ∧
        colFind? df "CLAIMED_AMOUNT" = some b ∧
        colToF a = Except.ok fa ∧ colToF b = Except.ok fb ∧
        colFind? E "PATIENT_SHARE_PCT" = some (List.zipWith (fun x y =>
          Scalar.num (FVal.clip2 (FVal.div x (FVal.addConst y eps)) 0 5))
          fa fb) ∧
        ∀ v ∈ List.zipWith (fun x y => Scalar.num (FVal.clip2
            (FVal.div x (FVal.addConst y eps)) 0 5)) fa fb,
          v = Scalar.num FVal.nan ∨
          ∃ q, v = Scalar.num (FVal.fin q) ∧ 0 ≤ q ∧ q ≤ 5) ∧
    ("ACCEPTED_TAX" ∈ colsOf df → "BILLED_TAX" ∈ colsOf df →
      ∃ a b fa fb, colFind? df "ACCEPTED_TAX" = some a ∧
        colFind? df "BILLED_TAX" = some b ∧
        colToF a = Except.ok fa ∧ colToF b = Except.ok fb ∧
        colFind? E "TAX_ACCEPT_RATIO" = some (List.zipWith (fun x y =>
          Scalar.num (FVal.clip2 (FVal.div x (FVal.addConst y eps)) 0 2))
          fa fb) ∧
        ∀ v ∈ List.zipWith (fun x y => Scalar.num (FVal.clip2
            (FVal.div x (FVal.addConst y eps)) 0 2)) fa fb,
          v = Scalar.num FVal.nan ∨
          ∃ q, v = Scalar.num (FVal.fin q) ∧ 0 ≤ q ∧ q ≤ 2) ∧
    ("SYSTEM_CLAIMED_AMOUNT" ∈ colsOf df → "CLAIMED_AMOUNT" ∈ colsOf df →
      ∃ a b fa fb, colFind? df "SYSTEM_CLAIMED_AMOUNT" = some a ∧
        colFind? df "CLAIMED_AMOUNT" = some b ∧
        colToF a = Except.ok fa ∧ colToF b = Except.ok fb ∧
        colFind? E "SYSTEM_TO_CLAIMED_RATIO" = some (List.zipWith
          (fun x y => Scalar.num (FVal.clip2 (FVal.div x
            (FVal.addConst y eps)) 0 5)) fa fb) ∧
        ∀ v ∈ List.zipWith (fun x y => Scalar.num (FVal.clip2
            (FVal.div x (FVal.addConst y eps)) 0 5)) fa fb,
          v = Scalar.num FVal.nan ∨
          ∃ q, v = Scalar.num (FVal.fin q) ∧ 0 ≤ q ∧ q ≤ 5) := by
  rcases engineerFrame_ok_parts cfg df E hE with
    ⟨df1, df2, df3, h1, h2, h3, hEeq⟩
  subst hEeq
  have hloop : ∀ n ∈ DERIVED_RATIO_COLS,
      colFind? ((amtForFeats cfg).foldl (amtFeatureStep cfg) df3) n =
      colFind? df3 n := by
    intro n hn
    apply amtLoop_preserves
    intro x hx s hs
    exact amt_suffix_ne_ratio x (List.mem_filter.mp hx).1 s hs n hn
  have hbound : ∀ (lo hi : ℚ), lo ≤ hi →
      ∀ (fa fb : List FVal) (v : Scalar),
      v ∈ List.zipWith (fun x y => Scalar.num (FVal.clip2
        (FVal.div x (FVal.addConst y eps)) lo hi)) fa fb →
      v = Scalar.num FVal.nan ∨
      ∃ q, v = Scalar.num (FVal.fin q) ∧ lo ≤ q ∧ q ≤ hi := by
    intro lo hi hlohi fa fb v hv
    rcases mem_zipWith_exists _ fa fb v hv with ⟨x, y, hxy⟩
    subst hxy
    rcases clip2_nan_or_bounded (FVal.div x (FVal.addConst y eps)) lo hi
      hlohi with hnan | ⟨q, hq, hql, hqh⟩
    · left
      rw [hnan]
    · right
      exact ⟨q, by rw [hq], hql, hqh⟩
  refine ⟨?_, ?_, ?_⟩
  · intro hnm hdm
    rcases addRatio_ok_set df _ _ _ 0 5 df1 h1 hnm hdm with
      ⟨a, b, fa, fb, ha, hb, hfa, hfb, hset⟩
    refine ⟨a, b, fa, fb, ha, hb, hfa, hfb, ?_, hbound 0 5 (by norm_num)
      fa fb⟩
    rw [hloop "PATIENT_SHARE_PCT" (by decide)]
    rw [addRatio_ok_preserves df2 _ _ _ _ _ df3 h3 _ (by decide)]
    rw [addRatio_ok_preserves df1 _ _ _ _ _ df2 h2 _ (by decide)]
    exact hset
  · intro hnm hdm
    have hnm1 : "ACCEPTED_TAX" ∈ colsOf df1 :=
      (addRatio_ok_mem df _ _ _ _ _ df1 h1 _ (by decide)).mpr hnm
    have hdm1 : "BILLED_TAX" ∈ colsOf df1 :=
      (addRatio_ok_mem df _ _ _ _ _ df1 h1 _ (by decide)).mpr hdm
    rcases addRatio_ok_set df1 _ _ _ 0 2 df2 h2 hnm1 hdm1 with
      ⟨a, b, fa, fb, ha, hb, hfa, hfb, hset⟩
    rw [addRatio_ok_preserves df _ _ _ _ _ df1 h1 _ (by decide)] at ha
    rw [addRatio_ok_preserves df _ _ _ _ _ df1 h1 _ (by decide)] at hb
    refine ⟨a, b, fa, fb, ha, hb, hfa, hfb, ?_, hbound 0 2 (by norm_num)
      fa fb⟩
    rw [hloop "TAX_ACCEPT_RATIO" (by decide)]
    rw [addRatio_ok_preserves df2 _ _ _ _ _ df3 h3 _ (by decide)]
    exact hset
  · intro hnm hdm
    have hnm1 : "SYSTEM_CLAIMED_AMOUNT" ∈ colsOf df1 :=
      (addRatio_ok_mem df _ _ _ _ _ df1 h1 _ (by decide)).mpr hnm
    have hdm1 : "CLAIMED_AMOUNT" ∈ colsOf df1 :=
      (addRatio_ok_mem df _ _ _ _ _ df1 h1 _ (by decide)).mpr hdm
    have hnm2 : "SYSTEM_CLAIMED_AMOUNT" ∈ colsOf df2 :=
      (addRatio_ok_mem df1 _ _ _ _ _ df2 h2 _ (by decide)).mpr hnm1
    have hdm2 : "CLAIMED_AMOUNT" ∈ colsOf df2 :=
      (addRatio_ok_mem df1 _ _ _ _ _ df2 h2 _ (by decide)).mpr hdm1
    rcases addRatio_ok_set df2 _ _ _ 0 5 df3 h3 hnm2 hdm2 with
      ⟨a, b, fa, fb, ha, hb, hfa, hfb, hset⟩
    rw [addRatio_ok_preserves df1 _ _ _ _ _ df2 h2 _ (by decide),
      addRatio_ok_preserves df _ _ _ _ _ df1 h1 _ (by decide)] at ha
    rw [addRatio_ok_preserves df1 _ _ _ _ _ df2 h2 _ (by decide),
      addRatio_ok_preserves df _ _ _ _ _ df1 h1 _ (by decide)] at hb
    refine ⟨a, b, fa, fb, ha, hb, hfa, hfb, ?_, hbound 0 5 (by norm_num)
      fa fb⟩
    rw [hloop "SYSTEM_TO_CLAIMED_RATIO" (by decide)]
    exact hset

/-- C3 witness: a concrete frame with both `PATIENT_SHARE` and
`CLAIMED_AMOUNT` present. -/
theorem c3_ratio_clip_bounds_witness :
    (engineerFrame ⟨[], [], none, 0, id⟩
        [("PATIENT_SHARE", [Scalar.num (FVal.fin 1)]),
         ("CLAIMED_AMOUNT", [Scalar.num (FVal.fin 2)])] =
      Except.ok
        [("PATIENT_SHARE", [Scalar.num (FVal.fin 1)]),
         ("CLAIMED_AMOUNT", [Scalar.num (FVal.fin 2)]),
         ("PATIENT_SHARE_PCT", [Scalar.num (FVal.clip2 (FVal.div
           (FVal.fin 1) (FVal.addConst (FVal.fin 2) eps)) 0 5)])] ∧
      "PATIENT_SHARE" ∈ colsOf
        [(("PATIENT_SHARE" : String), [Scalar.num (FVal.fin 1)]),
         ("CLAIMED_AMOUNT", [Scalar.num (FVal.fin 2)])] ∧
      "CLAIMED_AMOUNT" ∈ colsOf
        [(("PATIENT_SHARE" : String), [Scalar.num (FVal.fin 1)]),
         ("CLAIMED_AMOUNT", [Scalar.num (FVal.fin 2)])]) ∧
    (∃ a b fa fb,
      colFind? [(("PATIENT_SHARE" : String), [Scalar.num (FVal.fin 1)]),
         ("CLAIMED_AMOUNT", [Scalar.num (FVal.fin 2)])]
        "PATIENT_SHARE" = some a ∧
      colFind? [(("PATIENT_SHARE" : String), [Scalar.num (FVal.fin 1)]),
         ("CLAIMED_AMOUNT", [Scalar.num (FVal.fin 2)])]
        "CLAIMED_AMOUNT" = some b ∧
      colToF a = Except.ok fa ∧ colToF b = Except.ok fb ∧
      colFind?
        [("PATIENT_SHARE", [Scalar.num (FVal.fin 1)]),
         ("CLAIMED_AMOUNT", [Scalar.num (FVal.fin 2)]),
         ("PATIENT_SHARE_PCT", [Scalar.num (FVal.clip2 (FVal.div
           (FVal.fin 1) (FVal.addConst (FVal.fin 2) eps)) 0 5)])]
        "PATIENT_SHARE_PCT" = some (List.zipWith (fun x y =>
          Scalar.num (FVal.clip2 (FVal.div x (FVal.addConst y eps)) 0 5))
          fa fb) ∧
      ∀ v ∈ List.zipWith (fun x y => Scalar.num (FVal.clip2
          (FVal.div x (FVal.addConst y eps)) 0 5)) fa fb,
        v = Scalar.num FVal.nan ∨
        ∃ q, v = Scalar.num (FVal.fin q) ∧ 0 ≤ q ∧ q ≤ 5) := by
  have hE : engineerFrame ⟨[], [], none, 0, id⟩
      [("PATIENT_SHARE", [Scalar.num (FVal.fin 1)]),
       ("CLAIMED_AMOUNT", [Scalar.num (FVal.fin 2)])] =
      Except.ok
        [("PATIENT_SHARE", [Scalar.num (FVal.fin 1)]),
         ("CLAIMED_AMOUNT", [Scalar.num (FVal.fin 2)]),
         ("PATIENT_SHARE_PCT", [Scalar.num (FVal.clip2 (FVal.div
           (FVal.fin 1) (FVal.addConst (FVal.fin 2) eps)) 0 5)])] := rfl
  exact ⟨⟨hE, by decide, by decide⟩,
    (c3_ratio_clip_bounds ⟨[], [], none, 0, id⟩
      [("PATIENT_SHARE", [Scalar.num (FVal.fin 1)]),
       ("CLAIMED_AMOUNT", [Scalar.num (FVal.fin 2)])]
      [("PATIENT_SHARE", [Scalar.num (FVal.fin 1)]),
       ("CLAIMED_AMOUNT", [Scalar.num (FVal.fin 2)]),
       ("PATIENT_SHARE_PCT", [Scalar.num (FVal.clip2 (FVal.div
         (FVal.fin 1) (FVal.addConst (FVal.fin 2) eps)) 0 5)])]
      hE).1 (by decide) (by decide)⟩

/-- C4: every request whose payload is neither a JSON object nor an array,
and every request during which feature construction or inference raises,
yields the structured error response with client-error status 400; the
handler is a pure function of the artifacts and the request, so a failed
request changes no process state. -/
theorem c4_request_error_boundary (cfg : Config)
    (pipeline : Frame → Except String (List ℚ)) (p : Payload)
    (thrOv : Option ℚ) :
    (∀ d, p = Payload.other d → predictHandler cfg pipeline p thrOv =
      Resp.failure 400
        "Payload must be a JSON object or a list of JSON objects.") ∧
    (∀ e, toFeatureFrame cfg p = Except.error e →
      predictHandler cfg pipeline p thrOv = Resp.failure 400 e) ∧
    (∀ fv e, toFeatureFrame cfg p = Except.ok fv →
      pipeline fv = Except.error e →
      predictHandler cfg pipeline p thrOv = Resp.failure 400 e) := by
  refine ⟨?_, ?_, ?_⟩
  · intro d hd
    subst hd
    rfl
  · intro e he
    unfold predictHandler
    rw [he]
  · intro fv e hok he
    unfold predictHandler
    rw [hok]
    dsimp only
    rw [he]

/-- C4 witness: a bare-string payload produces the 400 error response. -/
theorem c4_request_error_boundary_witness :
    Payload.other "bare string" = Payload.other "bare string" ∧
    predictHandler demoConfig (fun _ => Except.ok [])
        (Payload.other "bare string") none =
      Resp.failure 400
        "Payload must be a JSON object or a list of JSON objects." :=
  ⟨rfl, (c4_request_error_boundary demoConfig (fun _ => Except.ok [])
    (Payload.other "bare string") none).1 "bare string" rfl⟩

/-- C5: for a batch of `N` probabilities the predictor returns exactly `N`
records; the record at batch position `i` carries `row_id = i`, the
probability and threshold rounded to 6 decimal digits for display, and a
decision computed from the unrounded comparison `probability >= threshold`,
where the threshold is the per-call override when supplied and the
configured best threshold otherwise. -/
theorem withRowIds_predictDf_length (cfg : Config) (proba : List ℚ)
    (thrOv : Option ℚ) :
    (withRowIds (predictDf cfg proba thrOv)).length = proba.length := by
  unfold withRowIds predictDf
  simp

theorem withRowIds_predictDf_getElem (cfg : Config) (proba : List ℚ)
    (thrOv : Option ℚ) (i : ℕ) (h : i < proba.length) :
    (withRowIds (predictDf cfg proba thrOv))[i]? =
      some [("proba_approved", JScalar.num (round6 proba[i])),
        ("threshold", JScalar.num (round6 (thrOv.getD cfg.bestThr))),
        ("decision", JScalar.intv
          (if thrOv.getD cfg.bestThr ≤ proba[i] then 1 else 0)),
        ("row_id", JScalar.intv i)] := by
  unfold withRowIds predictDf
  rw [List.getElem?_map, List.getElem?_enum, List.getElem?_map]
  rw [List.getElem?_eq_getElem h]
  rfl

theorem c5_batch_predictions (cfg : Config) (proba : List ℚ)
    (thrOv : Option ℚ) (i : ℕ) (h : i < proba.length) :
    (withRowIds (predictDf cfg proba thrOv)).length = proba.length ∧
    (withRowIds (predictDf cfg proba thrOv))[i]? =
      some [("proba_approved", JScalar.num (round6 proba[i])),
        ("threshold", JScalar.num (round6 (thrOv.getD cfg.bestThr))),
        ("decision", JScalar.intv
          (if thrOv.getD cfg.bestThr ≤ proba[i] then 1 else 0)),
        ("row_id", JScalar.intv i)] :=
  ⟨withRowIds_predictDf_length cfg proba thrOv,
    withRowIds_predictDf_getElem cfg proba thrOv i h⟩

/-- C5 witness: a concrete one-row batch. -/
theorem c5_batch_predictions_witness :
    (0 : ℕ) < [(3 : ℚ)/5].length ∧
    ((withRowIds (predictDf demoConfig [(3 : ℚ)/5] none)).length =
        [(3 : ℚ)/5].length ∧
      (withRowIds (predictDf demoConfig [(3 : ℚ)/5] none))[0]? =
        some [("proba_approved", JScalar.num (round6 ([(3 : ℚ)/5][0]))),
          ("threshold", JScalar.num (round6 (Option.getD none
            demoConfig.bestThr))),
          ("decision", JScalar.intv
            (if Option.getD none demoConfig.bestThr ≤ [(3 : ℚ)/5][0]
              then 1 else 0)),
          ("row_id", JScalar.intv 0)]) :=
  ⟨by decide, c5_batch_predictions demoConfig [(3 : ℚ)/5] none 0 (by decide)⟩

/-- C9: on a fixed batch, two runs with different thresholds produce
identical probability fields at every row; only the decision (and the
reported threshold) can differ, and row `i`'s decision differs exactly
when its unrounded probability lies between the two effective thresholds
(at or above the lower, strictly below the higher). -/
theorem c9_probability_threshold_independence (cfg : Config)
    (proba : List ℚ) (t1 t2 : Option ℚ) (i : ℕ) (h : i < proba.length) :
    ∃ r1 r2,
      (predictDf cfg proba t1)[i]? = some r1 ∧
      (predictDf cfg proba t2)[i]? = some r2 ∧
      predFind? r1 "proba_approved" = predFind? r2 "proba_approved" ∧
      (predFind? r1 "decision" ≠ predFind? r2 "decision" ↔
        (min (t1.getD cfg.bestThr) (t2.getD cfg.bestThr) ≤ proba[i] ∧
          proba[i] < max (t1.getD cfg.bestThr) (t2.getD cfg.bestThr))) := by
  refine ⟨[("proba_approved", JScalar.num (round6 proba[i])),
      ("threshold", JScalar.num (round6 (t1.getD cfg.bestThr))),
      ("decision", JScalar.intv
        (if t1.getD cfg.bestThr ≤ proba[i] then 1 else 0))],
    [("proba_approved", JScalar.num (round6 proba[i])),
      ("threshold", JScalar.num (round6 (t2.getD cfg.bestThr))),
      ("decision", JScalar.intv
        (if t2.getD cfg.bestThr ≤ proba[i] then 1 else 0))],
    ?_, ?_, ?_, ?_⟩
  · unfold predictDf
    rw [List.getElem?_map, List.getElem?_eq_getElem h]
    rfl
  · unfold predictDf
    rw [List.getElem?_map, List.getElem?_eq_getElem h]
    rfl
  · rfl
  · have hred : ∀ pr th d, predFind?
        [("proba_approved", JScalar.num pr), ("threshold", JScalar.num th),
          ("decision", JScalar.intv d)] "decision" =
        some (JScalar.intv d) := fun pr th d => rfl
    rw [hred, hred]
    have hiff : (some (JScalar.intv (if t1.getD cfg.bestThr ≤ proba[i]
          then 1 else 0)) ≠
        some (JScalar.intv (if t2.getD cfg.bestThr ≤ proba[i]
          then 1 else 0))) ↔
        ((if t1.getD cfg.bestThr ≤ proba[i] then (1 : ℤ) else 0) ≠
          (if t2.getD cfg.bestThr ≤ proba[i] then 1 else 0)) := by
      simp
    rw [hiff]
    by_cases h1 : t1.getD cfg.bestThr ≤ proba[i] <;>
      by_cases h2 : t2.getD cfg.bestThr ≤ proba[i]
    · rw [if_pos h1, if_pos h2]
      constructor
      · intro hne
        exact absurd rfl hne
      · rintro ⟨_, hmax⟩
        rcases lt_max_iff.mp hmax with hh | hh <;> linarith
    · rw [if_pos h1, if_neg h2]
      constructor
      · intro _
        exact ⟨min_le_iff.mpr (Or.inl h1),
          lt_max_iff.mpr (Or.inr (not_le.mp h2))⟩
      · intro _
        decide
    · rw [if_neg h1, if_pos h2]
      constructor
      · intro _
        exact ⟨min_le_iff.mpr (Or.inr h2),
          lt_max_iff.mpr (Or.inl (not_le.mp h1))⟩
      · intro _
        decide
    · rw [if_neg h1, if_neg h2]
      constructor
      · intro hne
        exact absurd rfl hne
      · rintro ⟨hmin, _⟩
        rcases min_le_iff.mp hmin with hh | hh <;> linarith

/-- C9 witness: a concrete batch and two thresholds. -/
theorem c9_probability_threshold_independence_witness :
    (0 : ℕ) < [(7 : ℚ)/10].length ∧
    (∃ r1 r2,
      (predictDf demoConfig [(7 : ℚ)/10] none)[0]? = some r1 ∧
      (predictDf demoConfig [(7 : ℚ)/10] (some (9/10)))[0]? = some r2 ∧
      predFind? r1 "proba_approved" = predFind? r2 "proba_approved" ∧
      (predFind? r1 "decision" ≠ predFind? r2 "decision" ↔
        (min ((none : Option ℚ).getD demoConfig.bestThr)
            ((some ((9 : ℚ)/10)).getD demoConfig.bestThr) ≤
            [(7 : ℚ)/10][0] ∧
          [(7 : ℚ)/10][0] <
            max ((none : Option ℚ).getD demoConfig.bestThr)
              ((some ((9 : ℚ)/10)).getD demoConfig.bestThr)))) :=
  ⟨by decide, c9_probability_threshold_independence demoConfig
    [(7 : ℚ)/10] none (some (9/10)) 0 (by decide)⟩

theorem round6_bounds (q : ℚ) (h0 : 0 ≤ q) (h1 : q ≤ 1) :
    0 ≤ round6 q ∧ round6 q ≤ 1 := by
  unfold round6
  have hf : round (q * 1000000) = ⌊q * 1000000 + 1/2⌋ := round_eq _
  have hlow : (0 : ℤ) ≤ round (q * 1000000) := by
    rw [hf]
    apply Int.le_floor.mpr
    push_cast
    linarith
  have hhigh : round (q * 1000000) ≤ 1000000 := by
    rw [hf]
    calc ⌊q * 1000000 + 1/2⌋ ≤ ⌊(1000000 : ℚ) + 1/2⌋ :=
          Int.floor_mono (by linarith)
      _ = 1000000 := by norm_num [Int.floor_eq_iff]
  constructor
  · apply div_nonneg _ (by norm_num)
    exact_mod_cast hlow
  · rw [div_le_one (by norm_num)]
    exact_mod_cast hhigh

/-- C6 counterexample: at a concrete input (probability 1/2, per-call
threshold override 5) the record returned by the handler's prediction
stage has no field named `probability` (the field is `proba_approved`),
its `threshold` value 5 is outside `[0,1]`, and `decision` is the integer
0, not a boolean — so the claimed Prediction shape fails. -/
theorem c6_prediction_shape_counterexample :
    (withRowIds (predictDf demoConfig [1/2] (some 5)))[0]? =
      some [("proba_approved", JScalar.num (1/2)),
        ("threshold", JScalar.num 5), ("decision", JScalar.intv 0),
        ("row_id", JScalar.intv 0)] ∧
    ¬ specPredShape [("proba_approved", JScalar.num (1/2)),
        ("threshold", JScalar.num 5), ("decision", JScalar.intv 0),
        ("row_id", JScalar.intv 0)] := by
  constructor
  · have h1 : round6 (1/2) = 1/2 := by
      unfold round6
      norm_num [round_eq, Int.floor_eq_iff]
    have h5 : round6 (5 : ℚ) = 5 := by
      unfold round6
      norm_num [round_eq, Int.floor_eq_iff]
    have hle : ¬((5 : ℚ) ≤ 1/2) := by norm_num
    rw [withRowIds_predictDf_getElem demoConfig [1/2] (some 5) 0
      (by simp)]
    simp only [List.getElem_cons_zero, Option.getD_some]
    rw [h1, h5, if_neg hle]
    norm_num
  · intro hshape
    rcases hshape with ⟨⟨q, hq, _⟩, _⟩
    rw [show predFind? [("proba_approved", JScalar.num (1/2)),
        ("threshold", JScalar.num 5), ("decision", JScalar.intv 0),
        ("row_id", JScalar.intv 0)] "probability" = none from rfl] at hq
    exact Option.noConfusion hq

/-- C6 (amended): every prediction record returned by `POST /predict` has
the shape: a probability field that is named `proba_approved` (not
`probability`) and lies in `[0,1]` whenever the pipeline's probabilities
do; a `threshold` field equal to the rounded effective threshold, lying in
`[0,1]` whenever the effective (override-or-default) threshold does (the
override is not clamped); a `decision` field that is the integer 0 or 1
(not a boolean); and an integer `row_id`. -/
theorem c6_prediction_record_shape (cfg : Config)
    (pipeline : Frame → Except String (List ℚ)) (p : Payload)
    (thrOv : Option ℚ) (n : ℕ) (preds : List PredRecord)
    (hok : predictHandler cfg pipeline p thrOv = Resp.success n preds)
    (hprob : ∀ fv proba, pipeline fv = Except.ok proba →
      ∀ q ∈ proba, 0 ≤ q ∧ q ≤ 1)
    (hthr : 0 ≤ thrOv.getD cfg.bestThr ∧ thrOv.getD cfg.bestThr ≤ 1)
    (r : PredRecord) (hr : r ∈ preds) :
    (∃ q, predFind? r "proba_approved" = some (JScalar.num q) ∧
      0 ≤ q ∧ q ≤ 1) ∧
    (∃ q, predFind? r "threshold" = some (JScalar.num q) ∧
      0 ≤ q ∧ q ≤ 1) ∧
    (∃ d, predFind? r "decision" = some (JScalar.intv d) ∧
      (d = 0 ∨ d = 1)) ∧
    (∃ m, predFind? r "row_id" = some (JScalar.intv m)) := by
  unfold predictHandler at hok
  split at hok
  next e he => exact absurd hok (by simp)
  next fv hf =>
    split at hok
    next e he => exact absurd hok (by simp)
    next proba hpl =>
    injection hok with hn hpreds
    subst hpreds
    unfold withRowIds at hr
    rcases List.mem_map.mp hr with ⟨⟨i, x⟩, hmem, hrec⟩
    have hx : x ∈ predictDf cfg proba thrOv := by
      have hmf := List.mem_enumFrom hmem
      simp at hmf
      exact List.mem_iff_getElem.mpr ⟨i, hmf.1, hmf.2.symm⟩
    unfold predictDf at hx
    rcases List.mem_map.mp hx with ⟨q, hq, hxval⟩
    have hq01 := hprob fv proba hpl q hq
    have hrnd := round6_bounds q hq01.1 hq01.2
    have hthr6 := round6_bounds (thrOv.getD cfg.bestThr) hthr.1 hthr.2
    subst hxval
    subst hrec
    refine ⟨⟨round6 q, rfl, hrnd.1, hrnd.2⟩,
      ⟨round6 (thrOv.getD cfg.bestThr), rfl, hthr6.1, hthr6.2⟩,
      ⟨(if thrOv.getD cfg.bestThr ≤ q then 1 else 0), rfl, ?_⟩,
      ⟨(i : ℤ), rfl⟩⟩
    by_cases hd : thrOv.getD cfg.bestThr ≤ q
    · rw [if_pos hd]
      exact Or.inr rfl
    · rw [if_neg hd]
      exact Or.inl rfl

/-- C6 witness: a concrete request through the handler. -/
theorem c6_prediction_record_shape_witness :
    (predictHandler demoConfig (fun _ => Except.ok [1/2]) (Payload.obj [])
        none = Resp.success 1 [[("proba_approved", JScalar.num (1/2)),
          ("threshold", JScalar.num (1/2)), ("decision", JScalar.intv 1),
          ("row_id", JScalar.intv 0)]]) ∧
    ((∃ q, predFind? [("proba_approved", JScalar.num (1/2)),
          ("threshold", JScalar.num (1/2)), ("decision", JScalar.intv 1),
          ("row_id", JScalar.intv 0)] "proba_approved" =
        some (JScalar.num q) ∧ 0 ≤ q ∧ q ≤ 1) ∧
      (∃ q, predFind? [("proba_approved", JScalar.num (1/2)),
          ("threshold", JScalar.num (1/2)), ("decision", JScalar.intv 1),
          ("row_id", JScalar.intv 0)] "threshold" =
        some (JScalar.num q) ∧ 0 ≤ q ∧ q ≤ 1) ∧
      (∃ d, predFind? [("proba_approved", JScalar.num (1/2)),
          ("threshold", JScalar.num (1/2)), ("decision", JScalar.intv 1),
          ("row_id", JScalar.intv 0)] "decision" =
        some (JScalar.intv d) ∧ (d = 0 ∨ d = 1)) ∧
      (∃ m, predFind? [("proba_approved", JScalar.num (1/2)),
          ("threshold", JScalar.num (1/2)), ("decision", JScalar.intv 1),
          ("row_id", JScalar.intv 0)] "row_id" =
        some (JScalar.intv m))) := by
  have h1 : round6 (1/2) = 1/2 := by
    unfold round6
    norm_num [round_eq, Int.floor_eq_iff]
  have hok : predictHandler demoConfig (fun _ => Except.ok [1/2])
      (Payload.obj []) none =
      Resp.success 1 [[("proba_approved", JScalar.num (1/2)),
        ("threshold", JScalar.num (1/2)), ("decision", JScalar.intv 1),
        ("row_id", JScalar.intv 0)]] := by
    have hfv : toFeatureFrame demoConfig (Payload.obj []) =
        Except.ok (demoConfig.baseFeatures.map
          (fun c => (c, [Scalar.num FVal.nan]))) := rfl
    unfold predictHandler
    rw [hfv]
    dsimp only
    have hval : withRowIds (predictDf demoConfig [1/2] none) =
        [[("proba_approved", JScalar.num (1/2)),
          ("threshold", JScalar.num (1/2)), ("decision", JScalar.intv 1),
          ("row_id", JScalar.intv 0)]] := by
      simp [withRowIds, predictDf, h1, demoConfig]
      rw [show ((2 : ℚ)⁻¹) = 1/2 from by norm_num]
      exact h1
    rw [hval]
    rfl
  exact ⟨hok,
    c6_prediction_record_shape demoConfig (fun _ => Except.ok [1/2])
      (Payload.obj []) none 1
      [[("proba_approved", JScalar.num (1/2)),
        ("threshold", JScalar.num (1/2)), ("decision", JScalar.intv 1),
        ("row_id", JScalar.intv 0)]]
      hok
      (by
        intro fv proba hpr q hq
        injection hpr with hpr2
        subst hpr2
        simp at hq
        subst hq
        norm_num)
      (by norm_num [demoConfig])
      [("proba_approved", JScalar.num (1/2)),
        ("threshold", JScalar.num (1/2)), ("decision", JScalar.intv 1),
        ("row_id", JScalar.intv 0)]
      (by simp)⟩

end ClaimEngine
